import Mathlib

/-!
# Finance tracker: the transactions route

A shallow embedding of `src/app/api/transactions/route.js` (the in-memory store and the four
handlers `GET`, `POST`, `PUT`, `DELETE`) together with the fragment of the JavaScript value
semantics the handlers rely on: truthiness, property access on a parsed JSON body, `ToString`,
`ToNumber`, the relational comparison `amount <= 0`, `parseFloat`, `String.prototype.trim`,
`new Date(...)` and `Array.prototype.sort`; and of the totals computed by
`src/app/transactions/page.js`.

Modelling conventions.
* A JavaScript string is a Lean `String` (a sequence of Unicode scalar values).
* A JavaScript number is a `JSNum`: `NaN`, an infinity, or a finite value carried as a rational
  (the two zeros are identified).  Rounding of a decimal literal to a double is exact on integers
  of magnitude at most `2 ^ 53` and is otherwise left to the `Host`.
* Everything an engine is free to choose, or that is a numeric formatting algorithm, is a field of
  `Host`; every theorem holds for every host.
* A handler is a function from the store before the request to the response and the store after.
  A JavaScript exception is the `error` case of `Except Unit`; the `catch` block of each handler
  turns it into the status-500 response.
* The counter `nextId` is a natural number (a JavaScript number is exact on the counter values
  below `2 ^ 53`).
-/

namespace FinanceTracker

/-! ## JavaScript values -/

/-- A JavaScript number. -/
inductive JSNum where
  | nan
  | fin (q : ℚ)
  | inf (neg : Bool)
deriving DecidableEq

/-- A JavaScript value as produced by `JSON.parse`, plus `undefined` for an absent property. -/
inductive JSValue where
  | undefined
  | null
  | bool (b : Bool)
  | num (n : JSNum)
  | str (s : String)
  | arr (xs : List JSValue)
  | obj (kvs : List (String × JSValue))

/-- The engine-dependent parts of the number and date built-ins. -/
structure Host where
  /-- Rounding of a rational that is not a small integer to the nearest double. -/
  roundInexact : ℚ → JSNum
  /-- The algorithm `Number::toString`. -/
  numberToString : JSNum → String
  /-- The result of `Date.parse` on a string that is not a valid `YYYY-MM-DD` date. -/
  dateParseOther : String → JSNum

/-- The host used for concrete runs: no rounding, a fixed rendering of numbers, and every string
that is not a calendar date is an invalid date. -/
def idealHost : Host where
  roundInexact := JSNum.fin
  numberToString := fun _ => "0"
  dateParseOther := fun _ => JSNum.nan

/-- Rounding to a double: the identity on integers of magnitude at most `2 ^ 53`. -/
def toDouble (H : Host) (q : ℚ) : JSNum :=
  if q.den = 1 ∧ q.num.natAbs ≤ 2 ^ 53 then JSNum.fin q else H.roundInexact q

/-- The conversion `ToBoolean`. -/
def toBoolean : JSValue → Bool
  | .undefined => false
  | .null => false
  | .bool b => b
  | .num .nan => false
  | .num (.fin q) => decide (q ≠ 0)
  | .num (.inf _) => true
  | .str s => decide (s ≠ "")
  | .arr _ => true
  | .obj _ => true

/-- Own-property lookup in a parsed JSON object. -/
def lookup (key : String) : List (String × JSValue) → JSValue
  | [] => .undefined
  | (k, v) :: rest => if k = key then v else lookup key rest

/-- The value of the property `key` of a value that is neither `null` nor `undefined`, for the
keys the handlers read (`amount`, `description`, `date`, `type`, `_id`): an own property of an
object; no prototype defines one of these keys, so any other value yields `undefined`. -/
def prop (body : JSValue) (key : String) : JSValue :=
  match body with
  | .obj kvs => lookup key kvs
  | _ => .undefined

/-- Whether a value is `null` or `undefined`. -/
def isNullish : JSValue → Bool
  | .undefined => true
  | .null => true
  | _ => false

/-- The read `body.key` of a destructuring pattern: it throws on `null` and `undefined`. -/
def getProp (body : JSValue) (key : String) : Except Unit JSValue :=
  if isNullish body then throw () else pure (prop body key)

/-- The text `Array.prototype.join` builds from the texts of the elements. -/
def commaJoin : List String → String
  | [] => ""
  | [a] => a
  | a :: b :: rest => a ++ "," ++ commaJoin (b :: rest)

mutual
/-- The conversion `ToString`.  An array is joined with commas, `null` and `undefined` elements
giving the empty text; an object is `[object Object]` unless it has an own `toString` property,
which (never being callable in parsed JSON) makes `OrdinaryToPrimitive` throw. -/
def toStr (H : Host) : JSValue → Except Unit String
  | .undefined => pure "undefined"
  | .null => pure "null"
  | .bool b => pure (if b then "true" else "false")
  | .num n => pure (H.numberToString n)
  | .str s => pure s
  | .arr xs => do
      let parts ← elementStrings H xs
      pure (commaJoin parts)
  | .obj kvs =>
      if kvs.any (fun p => p.1 == "toString") then throw () else pure "[object Object]"
termination_by structural v => v
/-- The texts of the elements of an array, as `join` computes them. -/
def elementStrings (H : Host) : List JSValue → Except Unit (List String)
  | [] => pure []
  | .undefined :: rest => do
      let more ← elementStrings H rest
      pure ("" :: more)
  | .null :: rest => do
      let more ← elementStrings H rest
      pure ("" :: more)
  | x :: rest => do
      let a ← toStr H x
      let more ← elementStrings H rest
      pure (a :: more)
termination_by structural l => l
end

/-! ## Strings: white space, trimming, numeric literals -/

/-- The characters `trim` removes: `WhiteSpace` and `LineTerminator` code points. -/
def isJSWhiteSpace (c : Char) : Bool :=
  let n := c.toNat
  n == 9 || n == 10 || n == 11 || n == 12 || n == 13 || n == 32 || n == 160 || n == 5760 ||
    (8192 ≤ n && n ≤ 8202) || n == 8232 || n == 8233 || n == 8239 || n == 8287 ||
    n == 12288 || n == 65279

/-- Removal of leading white space. -/
def trimStart (cs : List Char) : List Char :=
  cs.dropWhile isJSWhiteSpace

/-- Removal of trailing white space. -/
def trimEnd (cs : List Char) : List Char :=
  (cs.reverse.dropWhile isJSWhiteSpace).reverse

/-- The method `String.prototype.trim`. -/
def trim (s : String) : String :=
  String.mk (trimEnd (trimStart s.data))

/-- The value of a run of decimal digits. -/
def digitsValue (ds : List Char) : Nat :=
  ds.foldl (fun acc c => 10 * acc + (c.toNat - 48)) 0

/-- A scanned `StrDecimalLiteral`: an infinity, or `mantissa * 10 ^ exponent`, with its sign. -/
inductive Literal where
  | infinity (neg : Bool)
  | decimal (neg : Bool) (mantissa : Nat) (exponent : Int)
deriving DecidableEq

/-- An optional `ExponentPart` at the head of the input: its value and the rest of the input.
When no complete exponent part is present nothing is consumed. -/
def scanExponent (cs : List Char) : Int × List Char :=
  let signed (neg : Bool) (rest : List Char) : Option (Int × List Char) :=
    match rest.span Char.isDigit with
    | ([], _) => none
    | (ds, tail) => some (if neg then -((digitsValue ds : Nat) : Int) else (digitsValue ds : Nat), tail)
  let body (rest : List Char) : Option (Int × List Char) :=
    match rest with
    | '+' :: r => signed false r
    | '-' :: r => signed true r
    | r => signed false r
  match cs with
  | 'e' :: rest => (body rest).getD (0, cs)
  | 'E' :: rest => (body rest).getD (0, cs)
  | _ => (0, cs)

/-- The longest `StrUnsignedDecimalLiteral` at the head of the input, with the rest of the
input: `Infinity`, or digits with an optional fraction and exponent, or a fraction that starts
with the point. -/
def scanUnsigned (neg : Bool) (cs : List Char) : Option (Literal × List Char) :=
  if "Infinity".data.isPrefixOf cs then
    some (Literal.infinity neg, cs.drop 8)
  else
    match cs.span Char.isDigit with
    | ([], '.' :: r) =>
        match r.span Char.isDigit with
        | ([], _) => none
        | (fs, r2) =>
            let e := scanExponent r2
            some (Literal.decimal neg (digitsValue fs) (e.1 - fs.length), e.2)
    | ([], _) => none
    | (ds, '.' :: r) =>
        let fr := r.span Char.isDigit
        let e := scanExponent fr.2
        some (Literal.decimal neg (digitsValue (ds ++ fr.1)) (e.1 - fr.1.length), e.2)
    | (ds, r) =>
        let e := scanExponent r
        some (Literal.decimal neg (digitsValue ds) e.1, e.2)

/-- The longest `StrDecimalLiteral` at the head of the input. -/
def scanDecimal (cs : List Char) : Option (Literal × List Char) :=
  match cs with
  | '+' :: r => scanUnsigned false r
  | '-' :: r => scanUnsigned true r
  | r => scanUnsigned false r

/-- The number a scanned literal denotes. -/
def literalValue (H : Host) : Literal → JSNum
  | .infinity neg => JSNum.inf neg
  | .decimal neg m e =>
      toDouble H ((if neg then -1 else 1) * (m : ℚ) * (10 : ℚ) ^ e)

/-- The value of a digit in a base up to sixteen, when the character is such a digit. -/
def digitIn (base : Nat) (c : Char) : Option Nat :=
  let v : Option Nat :=
    if c.isDigit then some (c.toNat - 48)
    else if 'a'.toNat ≤ c.toNat ∧ c.toNat ≤ 'f'.toNat then some (c.toNat - 87)
    else if 'A'.toNat ≤ c.toNat ∧ c.toNat ≤ 'F'.toNat then some (c.toNat - 55)
    else none
  v.bind (fun d => if d < base then some d else none)

/-- The value of a non-empty run of digits of the given base, when the whole input is one. -/
def radixValue (base : Nat) (cs : List Char) : Option Nat :=
  match cs with
  | [] => none
  | _ => cs.foldl (fun acc c => acc.bind (fun a => (digitIn base c).map (fun d => base * a + d)))
      (some 0)

/-- The value of a `NonDecimalIntegerLiteral` (`0x`, `0o`, `0b` forms), when the input is one. -/
def scanNonDecimal (cs : List Char) : Option Nat :=
  match cs with
  | '0' :: 'x' :: r => radixValue 16 r
  | '0' :: 'X' :: r => radixValue 16 r
  | '0' :: 'o' :: r => radixValue 8 r
  | '0' :: 'O' :: r => radixValue 8 r
  | '0' :: 'b' :: r => radixValue 2 r
  | '0' :: 'B' :: r => radixValue 2 r
  | _ => none

/-- The conversion `StringToNumber`: the trimmed text is empty (zero), or a whole
`StrNumericLiteral`; anything else is `NaN`. -/
def stringToNumber (H : Host) (s : String) : JSNum :=
  let cs := trimEnd (trimStart s.data)
  match cs with
  | [] => JSNum.fin 0
  | _ =>
    match scanDecimal cs with
    | some (lit, []) => literalValue H lit
    | _ =>
      match scanNonDecimal cs with
      | some n => toDouble H (n : ℚ)
      | none => JSNum.nan

/-- The function `parseFloat` on a string: the value of the longest decimal literal that starts
the text after its leading white space, `NaN` when there is none. -/
def parseFloatString (H : Host) (s : String) : JSNum :=
  match scanDecimal (trimStart s.data) with
  | some (lit, _) => literalValue H lit
  | none => JSNum.nan

/-! ## Numeric coercions -/

/-- The conversion `ToNumber`; an array or object is first converted to its text. -/
def toNumber (H : Host) : JSValue → Except Unit JSNum
  | .undefined => pure JSNum.nan
  | .null => pure (JSNum.fin 0)
  | .bool b => pure (JSNum.fin (if b then 1 else 0))
  | .num n => pure n
  | .str s => pure (stringToNumber H s)
  | v => do
      let s ← toStr H v
      pure (stringToNumber H s)

/-- The comparison `n <= 0` on numbers: false for `NaN`. -/
def leZero : JSNum → Bool
  | .nan => false
  | .fin q => decide (q ≤ 0)
  | .inf neg => neg

/-- The expression `v <= 0`. -/
def lessEqZero (H : Host) (v : JSValue) : Except Unit Bool := do
  let n ← toNumber H v
  pure (leZero n)

/-- The call `parseFloat(v)`: the argument is converted to text and its leading decimal literal
is read.  On a number the text is `Number::toString` of it, which reads back as the same
number. -/
def parseFloat (H : Host) : JSValue → Except Unit JSNum
  | .num n => pure n
  | .str s => pure (parseFloatString H s)
  | v => do
      let s ← toStr H v
      pure (parseFloatString H s)

/-- The call `v.trim()`: only a string has a `trim` method; on any other value the call
throws a `TypeError`. -/
def callTrim : JSValue → Except Unit String
  | .str s => pure (trim s)
  | _ => throw ()

/-- The test `xs.includes(v)` for an array of strings. -/
def includes (xs : List String) : JSValue → Bool
  | .str s => xs.contains s
  | _ => false

/-- The test `a === v` for a string `a`. -/
def strictEq (a : String) : JSValue → Bool
  | .str s => decide (a = s)
  | _ => false

/-! ## Dates -/

/-- Leap years of the proleptic Gregorian calendar. -/
def isLeapYear (y : Nat) : Bool :=
  y % 4 = 0 ∧ (y % 100 ≠ 0 ∨ y % 400 = 0)

/-- The number of days of a month. -/
def daysInMonth (y m : Nat) : Nat :=
  match m with
  | 2 => if isLeapYear y then 29 else 28
  | 4 => 30
  | 6 => 30
  | 9 => 30
  | 11 => 30
  | _ => 31

/-- The number of days of the year that precede the first day of a month. -/
def daysBeforeMonth (y m : Nat) : Nat :=
  let leap := if isLeapYear y then 1 else 0
  match m with
  | 1 => 0
  | 2 => 31
  | 3 => 59 + leap
  | 4 => 90 + leap
  | 5 => 120 + leap
  | 6 => 151 + leap
  | 7 => 181 + leap
  | 8 => 212 + leap
  | 9 => 243 + leap
  | 10 => 273 + leap
  | 11 => 304 + leap
  | _ => 334 + leap

/-- The day number of the first day of a year, counted from 1 January 1970. -/
def dayFromYear (y : Nat) : Int :=
  365 * ((y : Int) - 1970) + ((y : Int) - 1969) / 4 - ((y : Int) - 1901) / 100
    + ((y : Int) - 1601) / 400

/-- The day number of a calendar date. -/
def dayNumber (y m d : Nat) : Int :=
  dayFromYear y + daysBeforeMonth y m + ((d : Int) - 1)

/-- The year, month and day of a text of the form `YYYY-MM-DD` that names a day of the calendar. -/
def isoDate (s : String) : Option (Nat × Nat × Nat) :=
  match s.data with
  | [y1, y2, y3, y4, '-', m1, m2, '-', d1, d2] =>
      if [y1, y2, y3, y4, m1, m2, d1, d2].all Char.isDigit then
        let y := digitsValue [y1, y2, y3, y4]
        let m := digitsValue [m1, m2]
        let d := digitsValue [d1, d2]
        if 1 ≤ m ∧ m ≤ 12 ∧ 1 ≤ d ∧ d ≤ daysInMonth y m then some (y, m, d) else none
      else none
  | _ => none

/-- The function `Date.parse`: a calendar date is midnight UTC of that day, in milliseconds. -/
def dateParse (H : Host) (s : String) : JSNum :=
  match isoDate s with
  | some (y, m, d) => JSNum.fin ((dayNumber y m d * 86400000 : Int) : ℚ)
  | none => H.dateParseOther s

/-- The operation `TimeClip`. -/
def timeClip : JSNum → JSNum
  | .fin q => if |q| ≤ 8640000000000000 then JSNum.fin ((Int.tdiv q.num q.den : Int) : ℚ)
      else JSNum.nan
  | _ => JSNum.nan

/-- The time value of `new Date(v)`. -/
def newDate (H : Host) : JSValue → Except Unit JSNum
  | .str s => pure (dateParse H s)
  | .undefined => pure JSNum.nan
  | .null => pure (JSNum.fin 0)
  | .bool b => pure (JSNum.fin (if b then 1 else 0))
  | .num n => pure (timeClip n)
  | v => do
      let s ← toStr H v
      pure (dateParse H s)

/-- The difference `x - y` of two time values; only its sign is used. -/
def timeDiff : JSNum → JSNum → JSNum
  | .fin a, .fin b => JSNum.fin (a - b)
  | _, _ => JSNum.nan

/-- Whether a comparator result tells `sort` to place the first argument after the second. -/
def isPositive : JSNum → Bool
  | .fin q => decide (0 < q)
  | .inf neg => !neg
  | .nan => false

/-! ## Sorting -/

/-- Insertion of `x`, which precedes the elements of the list in the array being sorted, at the
place the comparator gives it: after every element it compares greater than, before the first
it does not. -/
def insertSorted {α : Type} (cmp : α → α → Except Unit JSNum) (x : α) :
    List α → Except Unit (List α)
  | [] => pure [x]
  | y :: ys => do
      let v ← cmp x y
      if isPositive v then do
        let rest ← insertSorted cmp x ys
        pure (y :: rest)
      else
        pure (x :: y :: ys)

/-- The method `Array.prototype.sort` with a comparator, as a stable insertion sort; an
exception of the comparator ends the sort. -/
def sortWith {α : Type} (cmp : α → α → Except Unit JSNum) : List α → Except Unit (List α)
  | [] => pure []
  | x :: xs => do
      let sorted ← sortWith cmp xs
      insertSorted cmp x sorted

/-- The method `Array.prototype.findIndex`; `none` stands for the result `-1`. -/
def findIndex {α : Type} (p : α → Bool) : (l : List α) → Option (Fin l.length)
  | [] => none
  | x :: xs => if p x then some ⟨0, Nat.succ_pos xs.length⟩ else (findIndex p xs).map Fin.succ

/-! ## The store -/

/-- A stored transaction record. -/
structure Transaction where
  _id : String
  amount : JSNum
  description : String
  date : JSValue
  type : JSValue
  createdAt : String

/-- The module state: the array `transactions` and the counter `nextId`. -/
structure Store where
  transactions : List Transaction
  nextId : Nat

/-- The state the module starts with. -/
def seed : Store where
  transactions :=
    [ { _id := "1", amount := JSNum.fin 150, description := "Grocery shopping",
        date := JSValue.str "2024-01-15", type := JSValue.str "expense",
        createdAt := "2024-01-15T00:00:00.000Z" },
      { _id := "2", amount := JSNum.fin 2500, description := "Salary",
        date := JSValue.str "2024-01-01", type := JSValue.str "income",
        createdAt := "2024-01-01T00:00:00.000Z" },
      { _id := "3", amount := JSNum.fin 80, description := "Dinner with friends",
        date := JSValue.str "2024-01-10", type := JSValue.str "expense",
        createdAt := "2024-01-10T00:00:00.000Z" } ]
  nextId := 4

/-- What a handler passes to `NextResponse.json`. -/
inductive ResponseBody where
  | error (error : String)
  | list (transactions : List Transaction)
  | record (transaction : Transaction)
  | deleted (message : String) (transaction : Transaction)

/-- A response: its status and its body. -/
structure Response where
  status : Nat
  body : ResponseBody

/-- The call `request.json()`: it rejects when the request body is not JSON text (`none`). -/
def requestJson (request : Option JSValue) : Except Unit JSValue :=
  match request with
  | none => throw ()
  | some body => pure body

/-! ## The handlers -/

/-- The comparator of `GET`: `new Date(b.date) - new Date(a.date)`. -/
def compareDates (H : Host) (a b : Transaction) : Except Unit JSNum := do
  let tb ← newDate H b.date
  let ta ← newDate H a.date
  pure (timeDiff tb ta)

/-- The handler `GET`. -/
def GET (H : Host) (s : Store) : Response × Store :=
  match sortWith (compareDates H) s.transactions with
  | .ok sortedTransactions => (⟨200, .list sortedTransactions⟩, s)
  | .error _ => (⟨500, .error "Failed to fetch transactions"⟩, s)

/-- The condition `!amount || amount <= 0`. -/
def amountInvalid (H : Host) (amount : JSValue) : Except Unit Bool :=
  if !toBoolean amount then pure true else lessEqZero H amount

/-- The condition `!description || description.trim() === ''`. -/
def descriptionInvalid (description : JSValue) : Except Unit Bool :=
  if !toBoolean description then pure true
  else do
    let trimmed ← callTrim description
    pure (decide (trimmed = ""))

/-- The condition `!date`. -/
def dateInvalid (date : JSValue) : Bool :=
  !toBoolean date

/-- The condition `!['income', 'expense'].includes(type)`. -/
def typeInvalid (type : JSValue) : Bool :=
  !includes ["income", "expense"] type

/-- The body of the `try` block of `POST`; `now` is the text of `new Date().toISOString()`. -/
def tryPOST (H : Host) (now : String) (s : Store) (request : Option JSValue) :
    Except Unit (Response × Store) := do
  let body ← requestJson request
  let amount ← getProp body "amount"
  let description ← getProp body "description"
  let date ← getProp body "date"
  let type ← getProp body "type"
  if (← amountInvalid H amount) then
    return (⟨400, .error "Amount must be greater than 0"⟩, s)
  if (← descriptionInvalid description) then
    return (⟨400, .error "Description is required"⟩, s)
  if dateInvalid date then
    return (⟨400, .error "Date is required"⟩, s)
  if typeInvalid type then
    return (⟨400, .error "Type must be either income or expense"⟩, s)
  let newTransaction : Transaction :=
    { _id := toString s.nextId
      amount := ← parseFloat H amount
      description := ← callTrim description
      date := date
      type := type
      createdAt := now }
  let s1 : Store := { s with transactions := s.transactions ++ [newTransaction] }
  let s2 : Store := { s1 with nextId := s1.nextId + 1 }
  return (⟨201, .record newTransaction⟩, s2)

/-- The handler `POST`. -/
def POST (H : Host) (now : String) (s : Store) (request : Option JSValue) : Response × Store :=
  match tryPOST H now s request with
  | .ok result => result
  | .error _ => (⟨500, .error "Failed to create transaction"⟩, s)

/-- The body of the `try` block of `PUT`. -/
def tryPUT (H : Host) (s : Store) (request : Option JSValue) :
    Except Unit (Response × Store) := do
  let body ← requestJson request
  let _id ← getProp body "_id"
  let amount ← getProp body "amount"
  let description ← getProp body "description"
  let date ← getProp body "date"
  let type ← getProp body "type"
  if !toBoolean _id then
    return (⟨400, .error "Transaction ID is required"⟩, s)
  if (← amountInvalid H amount) then
    return (⟨400, .error "Amount must be greater than 0"⟩, s)
  if (← descriptionInvalid description) then
    return (⟨400, .error "Description is required"⟩, s)
  if dateInvalid date then
    return (⟨400, .error "Date is required"⟩, s)
  if typeInvalid type then
    return (⟨400, .error "Type must be either income or expense"⟩, s)
  match findIndex (fun t => strictEq t._id _id) s.transactions with
  | none => return (⟨404, .error "Transaction not found"⟩, s)
  | some transactionIndex =>
      let updated : Transaction :=
        { s.transactions.get transactionIndex with
          amount := ← parseFloat H amount
          description := ← callTrim description
          date := date
          type := type }
      let s1 : Store := { s with transactions := s.transactions.set transactionIndex updated }
      return (⟨200, .record (s1.transactions.getD transactionIndex updated)⟩, s1)

/-- The handler `PUT`. -/
def PUT (H : Host) (s : Store) (request : Option JSValue) : Response × Store :=
  match tryPUT H s request with
  | .ok result => result
  | .error _ => (⟨500, .error "Failed to update transaction"⟩, s)

/-- The body of the `try` block of `DELETE`. -/
def tryDELETE (s : Store) (request : Option JSValue) : Except Unit (Response × Store) := do
  let body ← requestJson request
  let _id ← getProp body "_id"
  if !toBoolean _id then
    return (⟨400, .error "Transaction ID is required"⟩, s)
  match findIndex (fun t => strictEq t._id _id) s.transactions with
  | none => return (⟨404, .error "Transaction not found"⟩, s)
  | some transactionIndex =>
      let deletedTransaction := s.transactions.get transactionIndex
      let s1 : Store := { s with transactions := s.transactions.eraseIdx transactionIndex }
      return (⟨200, .deleted "Transaction deleted successfully" deletedTransaction⟩, s1)

/-- The handler `DELETE`. -/
def DELETE (s : Store) (request : Option JSValue) : Response × Store :=
  match tryDELETE s request with
  | .ok result => result
  | .error _ => (⟨500, .error "Failed to delete transaction"⟩, s)

/-! ## Runs of the service -/

/-- A request to the route: its method, its body (`none` when the body is not JSON text) and,
for `POST`, the clock reading stamped on the new record. -/
inductive Request where
  | get
  | post (now : String) (body : Option JSValue)
  | put (body : Option JSValue)
  | delete (body : Option JSValue)

/-- The response to a request and the store it leaves. -/
def handle (H : Host) (s : Store) : Request → Response × Store
  | .get => GET H s
  | .post now body => POST H now s body
  | .put body => PUT H s body
  | .delete body => DELETE s body

/-- The stores a run of requests can reach from the seed store. -/
inductive Reachable (H : Host) : Store → Prop where
  | seed : Reachable H seed
  | step (s : Store) (r : Request) : Reachable H s → Reachable H (handle H s r).2

/-! ## Records built by the handlers -/

/-- The predicate `t => t._id === _id` of the lookups in `PUT` and `DELETE`. -/
def idMatches (body : JSValue) (t : Transaction) : Bool :=
  strictEq t._id (prop body "_id")

/-- The record `POST` builds from accepted fields: the parsed amount `a` and the description
text `d`. -/
def created (now : String) (s : Store) (a : JSNum) (d : String) (body : JSValue) :
    Transaction :=
  { _id := toString s.nextId, amount := a, description := trim d,
    date := prop body "date", type := prop body "type", createdAt := now }

/-- The record `PUT` writes over `old` from accepted fields. -/
def updated (old : Transaction) (a : JSNum) (d : String) (body : JSValue) : Transaction :=
  { old with amount := a, description := trim d, date := prop body "date",
             type := prop body "type" }

/-! ## Request bodies used in concrete runs -/

/-- The body `{_id: '2', amount: 0, description: 'x', date: '2024-02-01', type: 'income'}`. -/
def zeroAmountBody : JSValue :=
  .obj [("_id", .str "2"), ("amount", .num (.fin 0)), ("description", .str "x"),
    ("date", .str "2024-02-01"), ("type", .str "income")]

/-- The body `{amount: 50, description: 'Coffee', date: '2024-01-20', type: 'expense'}`. -/
def coffeeBody : JSValue :=
  .obj [("amount", .num (.fin 50)), ("description", .str "Coffee"),
    ("date", .str "2024-01-20"), ("type", .str "expense")]

/-- The body `{amount: 10, description: 5, date: '2024-01-01', type: 'transfer'}`: the type is
not one of the two allowed, and the description is a number. -/
def numericDescriptionBody : JSValue :=
  .obj [("amount", .num (.fin 10)), ("description", .num (.fin 5)),
    ("date", .str "2024-01-01"), ("type", .str "transfer")]

/-- The body `{amount: 10, description: '  ', type: 'transfer'}`: blank description, no date,
and a type that is not allowed. -/
def blankDescriptionBody : JSValue :=
  .obj [("amount", .num (.fin 10)), ("description", .str "  "), ("type", .str "transfer")]

/-- The body `{_id: '2', amount: 3000, description: ' Salary, raised ', date: '2024-02-01',
type: 'income'}`. -/
def raiseBody : JSValue :=
  .obj [("_id", .str "2"), ("amount", .num (.fin 3000)), ("description", .str " Salary, raised "),
    ("date", .str "2024-02-01"), ("type", .str "income")]

/-- The body `{_id: '99', amount: 0, description: 'x', date: '2024-02-01', type: 'income'}`. -/
def unknownIdZeroAmountBody : JSValue :=
  .obj [("_id", .str "99"), ("amount", .num (.fin 0)), ("description", .str "x"),
    ("date", .str "2024-02-01"), ("type", .str "income")]

/-- The body `{_id: '99', amount: 10, description: 'x', date: '2024-02-01', type: 'income'}`. -/
def unknownIdBody : JSValue :=
  .obj [("_id", .str "99"), ("amount", .num (.fin 10)), ("description", .str "x"),
    ("date", .str "2024-02-01"), ("type", .str "income")]

/-- The body `{_id: '3'}`. -/
def deleteThreeBody : JSValue :=
  .obj [("_id", .str "3")]

/-- The body `{amount: '-5abc', description: 'Refund', date: '2024-02-01', type: 'expense'}`:
the amount is a text that is not a number but starts with one. -/
def negativeTextAmountBody : JSValue :=
  .obj [("amount", .str "-5abc"), ("description", .str "Refund"),
    ("date", .str "2024-02-01"), ("type", .str "expense")]

/-- The body `{amount: 'abc', description: 'Refund', date: '2024-02-01', type: 'expense'}`. -/
def textAmountBody : JSValue :=
  .obj [("amount", .str "abc"), ("description", .str "Refund"),
    ("date", .str "2024-02-01"), ("type", .str "expense")]

/-- The body `{_id: '1', amount: 10, description: 5, date: '2024-01-01', type: 'expense'}`: the
description is the number 5. -/
def numberFiveBody : JSValue :=
  .obj [("_id", .str "1"), ("amount", .num (.fin 10)), ("description", .num (.fin 5)),
    ("date", .str "2024-01-01"), ("type", .str "expense")]

/-! ## Calendar dates of records -/

/-- The year, month and day a value names, when it is a text `YYYY-MM-DD` for a day of the
calendar. -/
def calendarDate : JSValue → Option (Nat × Nat × Nat)
  | .str s => isoDate s
  | _ => none

/-- The order of calendar dates: `a` is the same day as `b` or an earlier one. -/
def dateLe (a b : Nat × Nat × Nat) : Prop :=
  a.1 < b.1 ∨ (a.1 = b.1 ∧ (a.2.1 < b.2.1 ∨ (a.2.1 = b.2.1 ∧ a.2.2 ≤ b.2.2)))

/-- The relation between an earlier and a later entry of a list ordered by date descending:
both carry a calendar date and the date of the earlier entry is not older than that of the
later one. -/
def notOlder (earlier later : Transaction) : Prop :=
  ∃ x y, calendarDate earlier.date = some x ∧ calendarDate later.date = some y ∧ dateLe y x

/-- The day number of the calendar date of a record (zero when it carries none). -/
def dateKey (t : Transaction) : Int :=
  match calendarDate t.date with
  | some (y, m, d) => dayNumber y m d
  | none => 0

/-! ## The identifier invariant -/

/-- The identifiers of the stored records, in store order. -/
def ids (s : Store) : List String :=
  s.transactions.map (fun t => t._id)

/-- The invariant of the identifiers: the counter is positive, the stored identifiers are
pairwise distinct, and each is the decimal text of a positive integer below the counter. -/
def IdInvariant (s : Store) : Prop :=
  1 ≤ s.nextId ∧ (ids s).Nodup ∧
    ∀ t ∈ s.transactions, ∃ k, 1 ≤ k ∧ k < s.nextId ∧ t._id = toString k

/-! ## The field violations a create request is rejected for -/

/-- The store a sequence of requests, handled one after the other, leaves. -/
def run (H : Host) (s : Store) : List Request → Store
  | [] => s
  | r :: rest => run H (handle H s r).2 rest

/-! ## Well-formed records -/

/-- The well-formedness of a stored record: its description is non-empty after trimming and is
already trimmed, and its type is exactly `'income'` or `'expense'`. -/
def WellFormed (t : Transaction) : Prop :=
  trim t.description ≠ "" ∧ trim t.description = t.description ∧
    (t.type = .str "income" ∨ t.type = .str "expense")

/-! ## The totals of the transactions page (`src/app/transactions/page.js`) -/

theorem amountInvalid_false_parseFloat (H : Host) (v : JSValue)
    (h : amountInvalid H v = .ok false) : ∃ a, parseFloat H v = .ok a := by
  cases v with
  | num n => exact ⟨n, rfl⟩
  | str s => exact ⟨_, rfl⟩
  | undefined => simp [amountInvalid, toBoolean] at h; cases h
  | null => simp [amountInvalid, toBoolean] at h; cases h
  | bool b => exact ⟨_, rfl⟩
  | arr xs =>
    simp only [amountInvalid, toBoolean, lessEqZero, toNumber, bind, Except.bind] at h
    simp only [parseFloat, bind, Except.bind]
    cases hs : toStr H (.arr xs) with
    | error e => simp [hs] at h
    | ok t => exact ⟨_, rfl⟩
  | obj kvs =>
    simp only [amountInvalid, toBoolean, lessEqZero, toNumber, bind, Except.bind] at h
    simp only [parseFloat, bind, Except.bind]
    cases hs : toStr H (.obj kvs) with
    | error e => simp [hs] at h
    | ok t => exact ⟨_, rfl⟩

theorem descriptionInvalid_false (v : JSValue) (h : descriptionInvalid v = .ok false) :
    ∃ d, v = .str d ∧ trim d ≠ "" := by
  cases v with
  | str d =>
    refine ⟨d, rfl, ?_⟩
    by_cases hd : d = ""
    · simp [descriptionInvalid, toBoolean, hd, pure, Except.pure] at h
    · simpa [descriptionInvalid, toBoolean, hd, callTrim, bind, Except.bind, pure, Except.pure]
        using h
  | undefined => simp [descriptionInvalid, toBoolean, pure, Except.pure] at h
  | null => simp [descriptionInvalid, toBoolean, pure, Except.pure] at h
  | bool b =>
    cases b <;> simp [descriptionInvalid, toBoolean, callTrim, bind, Except.bind, pure,
      Except.pure, throw, throwThe, MonadExceptOf.throw] at h
  | num n =>
    cases n with
    | nan => simp [descriptionInvalid, toBoolean, pure, Except.pure] at h
    | fin q =>
      by_cases hq : q = 0 <;> simp [descriptionInvalid, toBoolean, hq, callTrim, bind,
        Except.bind, pure, Except.pure, throw, throwThe, MonadExceptOf.throw] at h
    | inf neg =>
      simp [descriptionInvalid, toBoolean, callTrim, bind, Except.bind, pure, Except.pure,
        throw, throwThe, MonadExceptOf.throw] at h
  | arr xs =>
    simp [descriptionInvalid, toBoolean, callTrim, bind, Except.bind, pure, Except.pure,
      throw, throwThe, MonadExceptOf.throw] at h
  | obj kvs =>
    simp [descriptionInvalid, toBoolean, callTrim, bind, Except.bind, pure, Except.pure,
      throw, throwThe, MonadExceptOf.throw] at h

/-! ## The outcomes of `POST` -/

theorem POST_malformed (H : Host) (now : String) (s : Store) :
    POST H now s none = (⟨500, .error "Failed to create transaction"⟩, s) := by
  simp [POST, tryPOST, requestJson, bind, Except.bind, throw, throwThe, MonadExceptOf.throw]

theorem POST_nullish (H : Host) (now : String) (s : Store) (body : JSValue)
    (hn : isNullish body = true) :
    POST H now s (some body) = (⟨500, .error "Failed to create transaction"⟩, s) := by
  simp [POST, tryPOST, requestJson, getProp, hn, bind, Except.bind, throw, throwThe,
    MonadExceptOf.throw, pure, Except.pure]

theorem POST_amount_throws (H : Host) (now : String) (s : Store) (body : JSValue)
    (hn : isNullish body = false) (e : Unit)
    (h1 : amountInvalid H (prop body "amount") = .error e) :
    POST H now s (some body) = (⟨500, .error "Failed to create transaction"⟩, s) := by
  simp [POST, tryPOST, requestJson, getProp, hn, h1, bind, Except.bind, pure, Except.pure]

theorem POST_amount_invalid (H : Host) (now : String) (s : Store) (body : JSValue)
    (hn : isNullish body = false) (h1 : amountInvalid H (prop body "amount") = .ok true) :
    POST H now s (some body) = (⟨400, .error "Amount must be greater than 0"⟩, s) := by
  simp [POST, tryPOST, requestJson, getProp, hn, h1, bind, Except.bind, pure, Except.pure]

theorem POST_description_throws (H : Host) (now : String) (s : Store) (body : JSValue)
    (hn : isNullish body = false) (h1 : amountInvalid H (prop body "amount") = .ok false)
    (e : Unit) (h2 : descriptionInvalid (prop body "description") = .error e) :
    POST H now s (some body) = (⟨500, .error "Failed to create transaction"⟩, s) := by
  simp [POST, tryPOST, requestJson, getProp, hn, h1, h2, bind, Except.bind, pure, Except.pure]

theorem POST_description_invalid (H : Host) (now : String) (s : Store) (body : JSValue)
    (hn : isNullish body = false) (h1 : amountInvalid H (prop body "amount") = .ok false)
    (h2 : descriptionInvalid (prop body "description") = .ok true) :
    POST H now s (some body) = (⟨400, .error "Description is required"⟩, s) := by
  simp [POST, tryPOST, requestJson, getProp, hn, h1, h2, bind, Except.bind, pure, Except.pure]

theorem POST_date_invalid (H : Host) (now : String) (s : Store) (body : JSValue)
    (hn : isNullish body = false) (h1 : amountInvalid H (prop body "amount") = .ok false)
    (h2 : descriptionInvalid (prop body "description") = .ok false)
    (h3 : dateInvalid (prop body "date") = true) :
    POST H now s (some body) = (⟨400, .error "Date is required"⟩, s) := by
  simp [POST, tryPOST, requestJson, getProp, hn, h1, h2, h3, bind, Except.bind, pure,
    Except.pure]

theorem POST_type_invalid (H : Host) (now : String) (s : Store) (body : JSValue)
    (hn : isNullish body = false) (h1 : amountInvalid H (prop body "amount") = .ok false)
    (h2 : descriptionInvalid (prop body "description") = .ok false)
    (h3 : dateInvalid (prop body "date") = false)
    (h4 : typeInvalid (prop body "type") = true) :
    POST H now s (some body) = (⟨400, .error "Type must be either income or expense"⟩, s) := by
  simp [POST, tryPOST, requestJson, getProp, hn, h1, h2, h3, h4, bind, Except.bind, pure,
    Except.pure]

theorem POST_valid (H : Host) (now : String) (s : Store) (body : JSValue)
    (hn : isNullish body = false) (h1 : amountInvalid H (prop body "amount") = .ok false)
    (h2 : descriptionInvalid (prop body "description") = .ok false)
    (h3 : dateInvalid (prop body "date") = false)
    (h4 : typeInvalid (prop body "type") = false) :
    ∃ a d, parseFloat H (prop body "amount") = .ok a ∧ prop body "description" = .str d ∧
      POST H now s (some body) =
        (⟨201, .record (created now s a d body)⟩,
          { transactions := s.transactions ++ [created now s a d body],
            nextId := s.nextId + 1 }) := by
  obtain ⟨a, ha⟩ := amountInvalid_false_parseFloat H _ h1
  obtain ⟨d, hd, _⟩ := descriptionInvalid_false _ h2
  refine ⟨a, d, ha, hd, ?_⟩
  have hc : callTrim (prop body "description") = .ok (trim d) := by rw [hd]; rfl
  simp [POST, tryPOST, requestJson, getProp, hn, h1, h2, h3, h4, ha, hc, created, bind,
    Except.bind, pure, Except.pure]


theorem POST_outcome (H : Host) (now : String) (s : Store) (request : Option JSValue) :
    POST H now s request = (⟨500, .error "Failed to create transaction"⟩, s) ∨
    (∃ body, request = some body ∧ isNullish body = false ∧
      amountInvalid H (prop body "amount") = .ok true ∧
      POST H now s request = (⟨400, .error "Amount must be greater than 0"⟩, s)) ∨
    (∃ body, request = some body ∧ isNullish body = false ∧
      amountInvalid H (prop body "amount") = .ok false ∧
      descriptionInvalid (prop body "description") = .ok true ∧
      POST H now s request = (⟨400, .error "Description is required"⟩, s)) ∨
    (∃ body, request = some body ∧ isNullish body = false ∧
      amountInvalid H (prop body "amount") = .ok false ∧
      descriptionInvalid (prop body "description") = .ok false ∧
      dateInvalid (prop body "date") = true ∧
      POST H now s request = (⟨400, .error "Date is required"⟩, s)) ∨
    (∃ body, request = some body ∧ isNullish body = false ∧
      amountInvalid H (prop body "amount") = .ok false ∧
      descriptionInvalid (prop body "description") = .ok false ∧
      dateInvalid (prop body "date") = false ∧
      typeInvalid (prop body "type") = true ∧
      POST H now s request = (⟨400, .error "Type must be either income or expense"⟩, s)) ∨
    (∃ body a d, request = some body ∧ isNullish body = false ∧
      amountInvalid H (prop body "amount") = .ok false ∧
      descriptionInvalid (prop body "description") = .ok false ∧
      dateInvalid (prop body "date") = false ∧
      typeInvalid (prop body "type") = false ∧
      parseFloat H (prop body "amount") = .ok a ∧ prop body "description" = .str d ∧
      POST H now s request =
        (⟨201, .record (created now s a d body)⟩,
          { transactions := s.transactions ++ [created now s a d body],
            nextId := s.nextId + 1 })) := by
  cases request with
  | none => exact Or.inl (POST_malformed H now s)
  | some body =>
    cases hn : isNullish body with
    | true => exact Or.inl (POST_nullish H now s body hn)
    | false =>
      cases h1 : amountInvalid H (prop body "amount") with
      | error e => exact Or.inl (POST_amount_throws H now s body hn e h1)
      | ok b1 =>
        cases b1 with
        | true => exact Or.inr (Or.inl ⟨body, rfl, hn, h1, POST_amount_invalid H now s body hn h1⟩)
        | false =>
          cases h2 : descriptionInvalid (prop body "description") with
          | error e => exact Or.inl (POST_description_throws H now s body hn h1 e h2)
          | ok b2 =>
            cases b2 with
            | true =>
              exact Or.inr (Or.inr (Or.inl
                ⟨body, rfl, hn, h1, h2, POST_description_invalid H now s body hn h1 h2⟩))
            | false =>
              cases h3 : dateInvalid (prop body "date") with
              | true =>
                exact Or.inr (Or.inr (Or.inr (Or.inl
                  ⟨body, rfl, hn, h1, h2, h3, POST_date_invalid H now s body hn h1 h2 h3⟩)))
              | false =>
                cases h4 : typeInvalid (prop body "type") with
                | true =>
                  exact Or.inr (Or.inr (Or.inr (Or.inr (Or.inl
                    ⟨body, rfl, hn, h1, h2, h3, h4,
                      POST_type_invalid H now s body hn h1 h2 h3 h4⟩))))
                | false =>
                  obtain ⟨a, d, ha, hd, hp⟩ := POST_valid H now s body hn h1 h2 h3 h4
                  exact Or.inr (Or.inr (Or.inr (Or.inr (Or.inr
                    ⟨body, a, d, rfl, hn, h1, h2, h3, h4, ha, hd, hp⟩))))

/-! ## The outcomes of `PUT` -/

theorem PUT_malformed (H : Host) (s : Store) :
    PUT H s none = (⟨500, .error "Failed to update transaction"⟩, s) := by
  simp [PUT, tryPUT, requestJson, bind, Except.bind, throw, throwThe, MonadExceptOf.throw]

theorem PUT_nullish (H : Host) (s : Store) (body : JSValue) (hn : isNullish body = true) :
    PUT H s (some body) = (⟨500, .error "Failed to update transaction"⟩, s) := by
  simp [PUT, tryPUT, requestJson, getProp, hn, bind, Except.bind, throw, throwThe,
    MonadExceptOf.throw, pure, Except.pure]

theorem PUT_id_missing (H : Host) (s : Store) (body : JSValue)
    (hn : isNullish body = false) (h0 : toBoolean (prop body "_id") = false) :
    PUT H s (some body) = (⟨400, .error "Transaction ID is required"⟩, s) := by
  simp [PUT, tryPUT, requestJson, getProp, hn, h0, bind, Except.bind, pure, Except.pure]

theorem PUT_amount_throws (H : Host) (s : Store) (body : JSValue)
    (hn : isNullish body = false) (h0 : toBoolean (prop body "_id") = true) (e : Unit)
    (h1 : amountInvalid H (prop body "amount") = .error e) :
    PUT H s (some body) = (⟨500, .error "Failed to update transaction"⟩, s) := by
  simp [PUT, tryPUT, requestJson, getProp, hn, h0, h1, bind, Except.bind, pure, Except.pure]

theorem PUT_amount_invalid (H : Host) (s : Store) (body : JSValue)
    (hn : isNullish body = false) (h0 : toBoolean (prop body "_id") = true)
    (h1 : amountInvalid H (prop body "amount") = .ok true) :
    PUT H s (some body) = (⟨400, .error "Amount must be greater than 0"⟩, s) := by
  simp [PUT, tryPUT, requestJson, getProp, hn, h0, h1, bind, Except.bind, pure, Except.pure]

theorem PUT_description_throws (H : Host) (s : Store) (body : JSValue)
    (hn : isNullish body = false) (h0 : toBoolean (prop body "_id") = true)
    (h1 : amountInvalid H (prop body "amount") = .ok false)
    (e : Unit) (h2 : descriptionInvalid (prop body "description") = .error e) :
    PUT H s (some body) = (⟨500, .error "Failed to update transaction"⟩, s) := by
  simp [PUT, tryPUT, requestJson, getProp, hn, h0, h1, h2, bind, Except.bind, pure,
    Except.pure]

theorem PUT_description_invalid (H : Host) (s : Store) (body : JSValue)
    (hn : isNullish body = false) (h0 : toBoolean (prop body "_id") = true)
    (h1 : amountInvalid H (prop body "amount") = .ok false)
    (h2 : descriptionInvalid (prop body "description") = .ok true) :
    PUT H s (some body) = (⟨400, .error "Description is required"⟩, s) := by
  simp [PUT, tryPUT, requestJson, getProp, hn, h0, h1, h2, bind, Except.bind, pure,
    Except.pure]

theorem PUT_date_invalid (H : Host) (s : Store) (body : JSValue)
    (hn : isNullish body = false) (h0 : toBoolean (prop body "_id") = true)
    (h1 : amountInvalid H (prop body "amount") = .ok false)
    (h2 : descriptionInvalid (prop body "description") = .ok false)
    (h3 : dateInvalid (prop body "date") = true) :
    PUT H s (some body) = (⟨400, .error "Date is required"⟩, s) := by
  simp [PUT, tryPUT, requestJson, getProp, hn, h0, h1, h2, h3, bind, Except.bind, pure,
    Except.pure]

theorem PUT_type_invalid (H : Host) (s : Store) (body : JSValue)
    (hn : isNullish body = false) (h0 : toBoolean (prop body "_id") = true)
    (h1 : amountInvalid H (prop body "amount") = .ok false)
    (h2 : descriptionInvalid (prop body "description") = .ok false)
    (h3 : dateInvalid (prop body "date") = false)
    (h4 : typeInvalid (prop body "type") = true) :
    PUT H s (some body) = (⟨400, .error "Type must be either income or expense"⟩, s) := by
  simp [PUT, tryPUT, requestJson, getProp, hn, h0, h1, h2, h3, h4, bind, Except.bind, pure,
    Except.pure]

theorem PUT_not_found (H : Host) (s : Store) (body : JSValue)
    (hn : isNullish body = false) (h0 : toBoolean (prop body "_id") = true)
    (h1 : amountInvalid H (prop body "amount") = .ok false)
    (h2 : descriptionInvalid (prop body "description") = .ok false)
    (h3 : dateInvalid (prop body "date") = false)
    (h4 : typeInvalid (prop body "type") = false)
    (h5 : findIndex (idMatches body) s.transactions = none) :
    PUT H s (some body) = (⟨404, .error "Transaction not found"⟩, s) := by
  unfold idMatches at h5
  simp [PUT, tryPUT, requestJson, getProp, hn, h0, h1, h2, h3, h4, h5, bind, Except.bind, pure,
    Except.pure]

theorem PUT_found (H : Host) (s : Store) (body : JSValue)
    (hn : isNullish body = false) (h0 : toBoolean (prop body "_id") = true)
    (h1 : amountInvalid H (prop body "amount") = .ok false)
    (h2 : descriptionInvalid (prop body "description") = .ok false)
    (h3 : dateInvalid (prop body "date") = false)
    (h4 : typeInvalid (prop body "type") = false)
    (i : Fin s.transactions.length)
    (h5 : findIndex (idMatches body) s.transactions = some i) :
    ∃ a d, parseFloat H (prop body "amount") = .ok a ∧ prop body "description" = .str d ∧
      PUT H s (some body) =
        (⟨200, .record (updated (s.transactions.get i) a d body)⟩,
          { transactions := s.transactions.set i (updated (s.transactions.get i) a d body),
            nextId := s.nextId }) := by
  obtain ⟨a, ha⟩ := amountInvalid_false_parseFloat H _ h1
  obtain ⟨d, hd, _⟩ := descriptionInvalid_false _ h2
  refine ⟨a, d, ha, hd, ?_⟩
  have hc : callTrim (prop body "description") = .ok (trim d) := by rw [hd]; rfl
  unfold idMatches at h5
  simp [PUT, tryPUT, requestJson, getProp, hn, h0, h1, h2, h3, h4, h5, ha, hc, updated, bind,
    Except.bind, pure, Except.pure]


theorem PUT_outcome (H : Host) (s : Store) (request : Option JSValue) :
    PUT H s request = (⟨500, .error "Failed to update transaction"⟩, s) ∨
    (∃ body, request = some body ∧ isNullish body = false ∧
      toBoolean (prop body "_id") = false ∧
      PUT H s request = (⟨400, .error "Transaction ID is required"⟩, s)) ∨
    (∃ body, request = some body ∧ isNullish body = false ∧
      toBoolean (prop body "_id") = true ∧
      amountInvalid H (prop body "amount") = .ok true ∧
      PUT H s request = (⟨400, .error "Amount must be greater than 0"⟩, s)) ∨
    (∃ body, request = some body ∧ isNullish body = false ∧
      toBoolean (prop body "_id") = true ∧
      amountInvalid H (prop body "amount") = .ok false ∧
      descriptionInvalid (prop body "description") = .ok true ∧
      PUT H s request = (⟨400, .error "Description is required"⟩, s)) ∨
    (∃ body, request = some body ∧ isNullish body = false ∧
      toBoolean (prop body "_id") = true ∧
      amountInvalid H (prop body "amount") = .ok false ∧
      descriptionInvalid (prop body "description") = .ok false ∧
      dateInvalid (prop body "date") = true ∧
      PUT H s request = (⟨400, .error "Date is required"⟩, s)) ∨
    (∃ body, request = some body ∧ isNullish body = false ∧
      toBoolean (prop body "_id") = true ∧
      amountInvalid H (prop body "amount") = .ok false ∧
      descriptionInvalid (prop body "description") = .ok false ∧
      dateInvalid (prop body "date") = false ∧
      typeInvalid (prop body "type") = true ∧
      PUT H s request = (⟨400, .error "Type must be either income or expense"⟩, s)) ∨
    (∃ body, request = some body ∧ isNullish body = false ∧
      toBoolean (prop body "_id") = true ∧
      amountInvalid H (prop body "amount") = .ok false ∧
      descriptionInvalid (prop body "description") = .ok false ∧
      dateInvalid (prop body "date") = false ∧
      typeInvalid (prop body "type") = false ∧
      findIndex (idMatches body) s.transactions = none ∧
      PUT H s request = (⟨404, .error "Transaction not found"⟩, s)) ∨
    (∃ body i a d, request = some body ∧ isNullish body = false ∧
      toBoolean (prop body "_id") = true ∧
      amountInvalid H (prop body "amount") = .ok false ∧
      descriptionInvalid (prop body "description") = .ok false ∧
      dateInvalid (prop body "date") = false ∧
      typeInvalid (prop body "type") = false ∧
      findIndex (idMatches body) s.transactions = some i ∧
      parseFloat H (prop body "amount") = .ok a ∧ prop body "description" = .str d ∧
      PUT H s request =
        (⟨200, .record (updated (s.transactions.get i) a d body)⟩,
          { transactions := s.transactions.set i (updated (s.transactions.get i) a d body),
            nextId := s.nextId })) := by
  cases request with
  | none => exact Or.inl (PUT_malformed H s)
  | some body =>
  cases hn : isNullish body with
  | true => exact Or.inl (PUT_nullish H s body hn)
  | false =>
  cases h0 : toBoolean (prop body "_id") with
  | false => exact Or.inr (Or.inl ⟨body, rfl, hn, h0, PUT_id_missing H s body hn h0⟩)
  | true =>
  cases h1 : amountInvalid H (prop body "amount") with
  | error e => exact Or.inl (PUT_amount_throws H s body hn h0 e h1)
  | ok b1 =>
  cases b1 with
  | true =>
    exact Or.inr (Or.inr (Or.inl ⟨body, rfl, hn, h0, h1, PUT_amount_invalid H s body hn h0 h1⟩))
  | false =>
  cases h2 : descriptionInvalid (prop body "description") with
  | error e => exact Or.inl (PUT_description_throws H s body hn h0 h1 e h2)
  | ok b2 =>
  cases b2 with
  | true =>
    exact Or.inr (Or.inr (Or.inr (Or.inl
      ⟨body, rfl, hn, h0, h1, h2, PUT_description_invalid H s body hn h0 h1 h2⟩)))
  | false =>
  cases h3 : dateInvalid (prop body "date") with
  | true =>
    exact Or.inr (Or.inr (Or.inr (Or.inr (Or.inl
      ⟨body, rfl, hn, h0, h1, h2, h3, PUT_date_invalid H s body hn h0 h1 h2 h3⟩))))
  | false =>
  cases h4 : typeInvalid (prop body "type") with
  | true =>
    exact Or.inr (Or.inr (Or.inr (Or.inr (Or.inr (Or.inl
      ⟨body, rfl, hn, h0, h1, h2, h3, h4, PUT_type_invalid H s body hn h0 h1 h2 h3 h4⟩)))))
  | false =>
  cases h5 : findIndex (idMatches body) s.transactions with
  | none =>
    exact Or.inr (Or.inr (Or.inr (Or.inr (Or.inr (Or.inr (Or.inl
      ⟨body, rfl, hn, h0, h1, h2, h3, h4, h5,
        PUT_not_found H s body hn h0 h1 h2 h3 h4 h5⟩))))))
  | some i =>
    obtain ⟨a, d, ha, hd, hp⟩ := PUT_found H s body hn h0 h1 h2 h3 h4 i h5
    exact Or.inr (Or.inr (Or.inr (Or.inr (Or.inr (Or.inr (Or.inr
      ⟨body, i, a, d, rfl, hn, h0, h1, h2, h3, h4, h5, ha, hd, hp⟩))))))

/-! ## The outcomes of `DELETE` -/

theorem DELETE_malformed (s : Store) :
    DELETE s none = (⟨500, .error "Failed to delete transaction"⟩, s) := by
  simp [DELETE, tryDELETE, requestJson, bind, Except.bind, throw, throwThe, MonadExceptOf.throw]

theorem DELETE_nullish (s : Store) (body : JSValue) (hn : isNullish body = true) :
    DELETE s (some body) = (⟨500, .error "Failed to delete transaction"⟩, s) := by
  simp [DELETE, tryDELETE, requestJson, getProp, hn, bind, Except.bind, throw, throwThe,
    MonadExceptOf.throw, pure, Except.pure]

theorem DELETE_id_missing (s : Store) (body : JSValue)
    (hn : isNullish body = false) (h0 : toBoolean (prop body "_id") = false) :
    DELETE s (some body) = (⟨400, .error "Transaction ID is required"⟩, s) := by
  simp [DELETE, tryDELETE, requestJson, getProp, hn, h0, bind, Except.bind, pure, Except.pure]

theorem DELETE_not_found (s : Store) (body : JSValue)
    (hn : isNullish body = false) (h0 : toBoolean (prop body "_id") = true)
    (h5 : findIndex (idMatches body) s.transactions = none) :
    DELETE s (some body) = (⟨404, .error "Transaction not found"⟩, s) := by
  unfold idMatches at h5
  simp [DELETE, tryDELETE, requestJson, getProp, hn, h0, h5, bind, Except.bind, pure,
    Except.pure]

theorem DELETE_found (s : Store) (body : JSValue)
    (hn : isNullish body = false) (h0 : toBoolean (prop body "_id") = true)
    (i : Fin s.transactions.length)
    (h5 : findIndex (idMatches body) s.transactions = some i) :
    DELETE s (some body) =
      (⟨200, .deleted "Transaction deleted successfully" (s.transactions.get i)⟩,
        { transactions := s.transactions.eraseIdx i, nextId := s.nextId }) := by
  unfold idMatches at h5
  simp [DELETE, tryDELETE, requestJson, getProp, hn, h0, h5, bind, Except.bind, pure,
    Except.pure]

theorem DELETE_outcome (s : Store) (request : Option JSValue) :
    DELETE s request = (⟨500, .error "Failed to delete transaction"⟩, s) ∨
    (∃ body, request = some body ∧ isNullish body = false ∧
      toBoolean (prop body "_id") = false ∧
      DELETE s request = (⟨400, .error "Transaction ID is required"⟩, s)) ∨
    (∃ body, request = some body ∧ isNullish body = false ∧
      toBoolean (prop body "_id") = true ∧
      findIndex (idMatches body) s.transactions = none ∧
      DELETE s request = (⟨404, .error "Transaction not found"⟩, s)) ∨
    (∃ body i, request = some body ∧ isNullish body = false ∧
      toBoolean (prop body "_id") = true ∧
      findIndex (idMatches body) s.transactions = some i ∧
      DELETE s request =
        (⟨200, .deleted "Transaction deleted successfully" (s.transactions.get i)⟩,
          { transactions := s.transactions.eraseIdx i, nextId := s.nextId })) := by
  cases request with
  | none => exact Or.inl (DELETE_malformed s)
  | some body =>
  cases hn : isNullish body with
  | true => exact Or.inl (DELETE_nullish s body hn)
  | false =>
  cases h0 : toBoolean (prop body "_id") with
  | false => exact Or.inr (Or.inl ⟨body, rfl, hn, h0, DELETE_id_missing s body hn h0⟩)
  | true =>
  cases h5 : findIndex (idMatches body) s.transactions with
  | none => exact Or.inr (Or.inr (Or.inl ⟨body, rfl, hn, h0, h5, DELETE_not_found s body hn h0 h5⟩))
  | some i => exact Or.inr (Or.inr (Or.inr ⟨body, i, rfl, hn, h0, h5, DELETE_found s body hn h0 i h5⟩))

/-! ## Facts about `findIndex` -/

theorem findIndex_eq_none {α : Type} (p : α → Bool) (l : List α) :
    findIndex p l = none ↔ ∀ x ∈ l, p x = false := by
  induction l with
  | nil => simp [findIndex]
  | cons x xs ih =>
    by_cases hx : p x = true
    · simp [findIndex, hx]
    · simp [findIndex, hx, ih]

theorem findIndex_some {α : Type} (p : α → Bool) (l : List α) (i : Fin l.length)
    (h : findIndex p l = some i) :
    p (l.get i) = true ∧ ∀ j : Fin l.length, j.val < i.val → p (l.get j) = false := by
  induction l with
  | nil => exact i.elim0
  | cons x xs ih =>
    by_cases hx : p x = true
    · simp only [findIndex, hx, if_true, Option.some.injEq] at h
      subst h
      exact ⟨hx, fun j hj => absurd hj (Nat.not_lt_zero _)⟩
    · simp only [findIndex, hx, Bool.false_eq_true, if_false, Option.map_eq_some'] at h
      obtain ⟨k, hk, rfl⟩ := h
      obtain ⟨h1, h2⟩ := ih k hk
      refine ⟨by simpa using h1, ?_⟩
      intro j hj
      rcases j with ⟨j, hjl⟩
      cases j with
      | zero => simpa using hx
      | succ j =>
        have := h2 ⟨j, by simpa using hjl⟩ (by simpa using hj)
        simpa using this

/-! ## C1: a failed request leaves the store as it was -/

theorem GET_store (H : Host) (s : Store) : (GET H s).2 = s := by
  unfold GET
  cases sortWith (compareDates H) s.transactions <;> rfl

/-- C1. Atomicity of failed requests: for every host, every store (transaction list and
`nextId` counter) and every request, in particular every `POST`, `PUT` or `DELETE` with any
body, well-formed or not, if the response has status 400, 404 or 500 then the transaction list
and the counter after the request are those before it. -/
theorem failed_request_leaves_store_unchanged (H : Host) (s : Store) (r : Request)
    (h : (handle H s r).1.status = 400 ∨ (handle H s r).1.status = 404 ∨
      (handle H s r).1.status = 500) :
    (handle H s r).2.transactions = s.transactions ∧ (handle H s r).2.nextId = s.nextId := by
  suffices hs : (handle H s r).2 = s by rw [hs]; exact ⟨rfl, rfl⟩
  cases r with
  | get => exact GET_store H s
  | post now body =>
    simp only [handle] at h ⊢
    rcases POST_outcome H now s body with e | ⟨_, _, _, _, e⟩ | ⟨_, _, _, _, _, e⟩ |
      ⟨_, _, _, _, _, _, e⟩ | ⟨_, _, _, _, _, _, _, e⟩ | ⟨_, _, _, _, _, _, _, _, _, _, _, e⟩
    all_goals first
      | (rw [e] at h; simp at h; done)
      | (rw [e])
  | put body =>
    simp only [handle] at h ⊢
    rcases PUT_outcome H s body with e | ⟨_, _, _, _, e⟩ | ⟨_, _, _, _, _, e⟩ |
      ⟨_, _, _, _, _, _, e⟩ | ⟨_, _, _, _, _, _, _, e⟩ | ⟨_, _, _, _, _, _, _, _, e⟩ |
      ⟨_, _, _, _, _, _, _, _, _, e⟩ | ⟨_, _, _, _, _, _, _, _, _, _, _, _, _, _, e⟩
    all_goals first
      | (rw [e] at h; simp at h; done)
      | (rw [e])
  | delete body =>
    simp only [handle] at h ⊢
    rcases DELETE_outcome s body with e | ⟨_, _, _, _, e⟩ | ⟨_, _, _, _, _, e⟩ |
      ⟨_, _, _, _, _, _, e⟩
    all_goals first
      | (rw [e] at h; simp at h; done)
      | (rw [e])

/-- C1 at a concrete input: a `PUT` on the seed store whose amount is zero is answered with
status 400 and leaves the three seed records and the counter value 4. -/
theorem failed_request_leaves_store_unchanged_witness :
    (handle idealHost seed (.put (some zeroAmountBody))).1.status = 400 ∧
    (handle idealHost seed (.put (some zeroAmountBody))).2.transactions = seed.transactions ∧
    (handle idealHost seed (.put (some zeroAmountBody))).2.nextId = seed.nextId :=
  have h : (handle idealHost seed (.put (some zeroAmountBody))).1.status = 400 := by
    show (PUT idealHost seed (some zeroAmountBody)).1.status = 400
    rw [PUT_amount_invalid idealHost seed zeroAmountBody rfl rfl rfl]
  ⟨h, failed_request_leaves_store_unchanged idealHost seed (.put (some zeroAmountBody))
    (Or.inl h)⟩

/-! ## Calendar arithmetic -/

theorem dayFromYear_step (y y' : Nat) (h : y < y') :
    dayFromYear y + 365 + (if isLeapYear y then 1 else 0) ≤ dayFromYear y' := by
  unfold dayFromYear isLeapYear
  split_ifs with hl <;> simp at hl <;> omega

theorem dayOfYear_bound (y m d : Nat) (hm1 : 1 ≤ m) (hm2 : m ≤ 12) (hd1 : 1 ≤ d)
    (hd2 : d ≤ daysInMonth y m) :
    daysBeforeMonth y m + d ≤ 365 + (if isLeapYear y then 1 else 0) := by
  interval_cases m <;> simp only [daysBeforeMonth, daysInMonth] at hd2 ⊢ <;>
    first | omega | (split_ifs at hd2 ⊢ <;> omega)

theorem dayOfYear_month (y m d m' : Nat) (hm1 : 1 ≤ m) (hmm : m < m') (hm2 : m' ≤ 12)
    (hd2 : d ≤ daysInMonth y m) :
    daysBeforeMonth y m + d ≤ daysBeforeMonth y m' := by
  interval_cases m' <;> interval_cases m <;> simp only [daysBeforeMonth, daysInMonth] at hd2 ⊢ <;>
    first | omega | (split_ifs at hd2 ⊢ <;> omega)

theorem isoDate_valid (s : String) (y m d : Nat) (h : isoDate s = some (y, m, d)) :
    1 ≤ m ∧ m ≤ 12 ∧ 1 ≤ d ∧ d ≤ daysInMonth y m := by
  unfold isoDate at h
  split at h
  · split_ifs at h with h1
    dsimp only at h
    split_ifs at h with h2
    simp only [Option.some.injEq, Prod.mk.injEq] at h
    obtain ⟨rfl, rfl, rfl⟩ := h
    exact h2
  · cases h

theorem dayNumber_mono (y m d y' m' d' : Nat)
    (hv : 1 ≤ m ∧ m ≤ 12 ∧ 1 ≤ d ∧ d ≤ daysInMonth y m)
    (hv' : 1 ≤ m' ∧ m' ≤ 12 ∧ 1 ≤ d' ∧ d' ≤ daysInMonth y' m')
    (h : dayNumber y m d ≤ dayNumber y' m' d') : dateLe (y, m, d) (y', m', d') := by
  unfold dateLe
  simp only
  by_contra hc
  have hlt : y' < y ∨ (y' = y ∧ (m' < m ∨ (m' = m ∧ d' < d))) := by omega
  unfold dayNumber at h
  rcases hlt with hy | ⟨rfl, hm | ⟨rfl, hd⟩⟩
  · have h1 := dayFromYear_step y' y hy
    have h2 := dayOfYear_bound y' m' d' hv'.1 hv'.2.1 hv'.2.2.1 hv'.2.2.2
    split_ifs at h1 h2 <;> omega
  · have h1 := dayOfYear_month y' m' d' m hv'.1 hm hv.2.1 hv'.2.2.2
    omega
  · omega

/-! ## C2: the order of the list `GET` returns -/

theorem newDate_calendar (H : Host) (t : Transaction) (h : (calendarDate t.date).isSome) :
    newDate H t.date = .ok (JSNum.fin ((dateKey t * 86400000 : Int) : ℚ)) := by
  unfold dateKey
  cases hd : t.date with
  | str s =>
    rw [hd] at h
    simp only [calendarDate] at h ⊢
    obtain ⟨⟨y, m, d⟩, hs⟩ := Option.isSome_iff_exists.mp h
    simp [newDate, dateParse, hs, pure, Except.pure]
  | _ => rw [hd] at h; simp [calendarDate] at h

theorem compareDates_calendar (H : Host) (a b : Transaction)
    (ha : (calendarDate a.date).isSome) (hb : (calendarDate b.date).isSome) :
    ∃ v, compareDates H a b = .ok v ∧ (isPositive v = true ↔ dateKey a < dateKey b) := by
  refine ⟨JSNum.fin (((dateKey b * 86400000 : Int) : ℚ) - ((dateKey a * 86400000 : Int) : ℚ)),
    ?_, ?_⟩
  · simp [compareDates, newDate_calendar H a ha, newDate_calendar H b hb, timeDiff, bind,
      Except.bind, pure, Except.pure]
  · simp only [isPositive, decide_eq_true_eq, sub_pos, Int.cast_lt]
    omega

theorem insertSorted_calendar (H : Host) (x : Transaction) (l : List Transaction)
    (hx : (calendarDate x.date).isSome) (hl : ∀ t ∈ l, (calendarDate t.date).isSome) :
    insertSorted (compareDates H) x l =
      .ok (l.orderedInsert (fun a b => dateKey b ≤ dateKey a) x) := by
  induction l with
  | nil => rfl
  | cons y ys ih =>
    obtain ⟨v, hv, hpos⟩ := compareDates_calendar H x y hx (hl y (List.mem_cons_self _ _))
    have ih' := ih (fun t ht => hl t (List.mem_cons_of_mem _ ht))
    by_cases hk : dateKey x < dateKey y
    · have hp : isPositive v = true := hpos.mpr hk
      have hn : ¬ dateKey y ≤ dateKey x := by omega
      simp [insertSorted, hv, hp, ih', hn, bind, Except.bind, pure, Except.pure]
    · have hp : isPositive v = false := by
        cases h : isPositive v with
        | false => rfl
        | true => exact absurd (hpos.mp h) hk
      have hn : dateKey y ≤ dateKey x := by omega
      simp [insertSorted, hv, hp, hn, bind, Except.bind, pure, Except.pure]

theorem sortWith_calendar (H : Host) (l : List Transaction)
    (hl : ∀ t ∈ l, (calendarDate t.date).isSome) :
    sortWith (compareDates H) l = .ok (l.insertionSort (fun a b => dateKey b ≤ dateKey a)) := by
  induction l with
  | nil => rfl
  | cons x xs ih =>
    have ih' := ih (fun t ht => hl t (List.mem_cons_of_mem _ ht))
    have hx := hl x (List.mem_cons_self _ _)
    have hs : ∀ t ∈ xs.insertionSort (fun a b => dateKey b ≤ dateKey a),
        (calendarDate t.date).isSome := fun t ht =>
      hl t (List.mem_cons_of_mem _ ((List.mem_insertionSort _).mp ht))
    simp [sortWith, ih', insertSorted_calendar H x _ hx hs, bind, Except.bind]

theorem notOlder_of_key (a b : Transaction) (ha : (calendarDate a.date).isSome)
    (hb : (calendarDate b.date).isSome) (h : dateKey b ≤ dateKey a) : notOlder a b := by
  obtain ⟨⟨y, m, d⟩, hx⟩ := Option.isSome_iff_exists.mp ha
  obtain ⟨⟨y', m', d'⟩, hy⟩ := Option.isSome_iff_exists.mp hb
  refine ⟨_, _, hx, hy, ?_⟩
  have va : 1 ≤ m ∧ m ≤ 12 ∧ 1 ≤ d ∧ d ≤ daysInMonth y m := by
    cases hd : a.date with
    | str s => rw [hd] at hx; exact isoDate_valid s y m d hx
    | _ => rw [hd] at hx; simp [calendarDate] at hx
  have vb : 1 ≤ m' ∧ m' ≤ 12 ∧ 1 ≤ d' ∧ d' ≤ daysInMonth y' m' := by
    cases hd : b.date with
    | str s => rw [hd] at hy; exact isoDate_valid s y' m' d' hy
    | _ => rw [hd] at hy; simp [calendarDate] at hy
  simp only [dateKey, hx, hy] at h
  exact dayNumber_mono y' m' d' y m d vb va h

/-- C2. For every store whose records all carry a calendar-date text, `GET` answers 200 with
a rearrangement of the stored records that is ordered by date descending: the date of every
entry is not older than the date of any later entry, in particular of the next one; and for
every date, the records of that date appear in the result in the order they have in the store
(the sort is stable). -/
theorem GET_sorted_by_date_descending_stable (H : Host) (s : Store)
    (hdates : ∀ t ∈ s.transactions, (calendarDate t.date).isSome = true) :
    ∃ sorted, GET H s = (⟨200, .list sorted⟩, s) ∧ sorted.Perm s.transactions ∧
      sorted.Pairwise notOlder ∧ sorted.Chain' notOlder ∧
      ∀ c : Nat × Nat × Nat,
        sorted.filter (fun t => decide (calendarDate t.date = some c)) =
          s.transactions.filter (fun t => decide (calendarDate t.date = some c)) := by
  haveI : IsTotal Transaction (fun a b => dateKey b ≤ dateKey a) := ⟨fun a b => le_total _ _⟩
  haveI : IsTrans Transaction (fun a b => dateKey b ≤ dateKey a) :=
    ⟨fun a b c hab hbc => le_trans hbc hab⟩
  have hperm := List.perm_insertionSort (fun a b => dateKey b ≤ dateKey a) s.transactions
  have hsorted := List.sorted_insertionSort (fun a b => dateKey b ≤ dateKey a) s.transactions
  have hmem : ∀ t ∈ s.transactions.insertionSort (fun a b => dateKey b ≤ dateKey a),
      (calendarDate t.date).isSome = true := fun t ht => hdates t (hperm.subset ht)
  have hpair : (s.transactions.insertionSort (fun a b => dateKey b ≤ dateKey a)).Pairwise
      notOlder := by
    have h2 : (s.transactions.insertionSort (fun a b => dateKey b ≤ dateKey a)).Pairwise
        (fun a b => dateKey b ≤ dateKey a) := hsorted
    exact (List.Pairwise.and_mem.mp h2).imp
      (fun {a b} ⟨ha, hb, hab⟩ => notOlder_of_key a b (hmem a ha) (hmem b hb) hab)
  refine ⟨_, ?_, hperm, hpair, hpair.chain', ?_⟩
  · simp [GET, sortWith_calendar H s.transactions hdates]
  · intro c
    have hsub : List.Sublist
        (s.transactions.filter (fun t => decide (calendarDate t.date = some c)))
        (s.transactions.insertionSort (fun a b => dateKey b ≤ dateKey a)) := by
      refine List.sublist_insertionSort ?_ (List.filter_sublist _)
      rw [List.pairwise_iff_forall_sublist]
      intro a b hab
      have ha : a ∈ s.transactions.filter (fun t => decide (calendarDate t.date = some c)) :=
        hab.subset (List.mem_cons_self _ _)
      have hb : b ∈ s.transactions.filter (fun t => decide (calendarDate t.date = some c)) :=
        hab.subset (List.mem_cons_of_mem _ (List.mem_cons_self _ _))
      have ha' := (List.mem_filter.mp ha).2
      have hb' := (List.mem_filter.mp hb).2
      simp only [decide_eq_true_eq] at ha' hb'
      simp [dateKey, ha', hb']
    have hsub2 := hsub.filter (fun t => decide (calendarDate t.date = some c))
    rw [List.filter_filter] at hsub2
    simp only [Bool.and_self] at hsub2
    have hlen := (hperm.filter (fun t => decide (calendarDate t.date = some c))).length_eq
    exact (hsub2.eq_of_length hlen.symm).symm

/-- C2 on the seed store: its three records carry calendar dates, so the result of `GET` is
ordered and stable. -/
theorem GET_sorted_by_date_descending_stable_witness :
    ∃ sorted, GET idealHost seed = (⟨200, .list sorted⟩, seed) ∧
      sorted.Perm seed.transactions ∧
      sorted.Pairwise notOlder ∧ sorted.Chain' notOlder ∧
      ∀ c : Nat × Nat × Nat,
        sorted.filter (fun t => decide (calendarDate t.date = some c)) =
          seed.transactions.filter (fun t => decide (calendarDate t.date = some c)) :=
  GET_sorted_by_date_descending_stable idealHost seed (by
    intro t ht
    simp only [seed, List.mem_cons, List.mem_singleton, List.not_mem_nil, or_false] at ht
    rcases ht with rfl | rfl | rfl <;> decide)

/-! ## Decimal rendering of the counter -/

theorem digitsValue_foldl (ds : List Char) (a : Nat) :
    ds.foldl (fun acc c => 10 * acc + (c.toNat - 48)) a = a * 10 ^ ds.length + digitsValue ds := by
  unfold digitsValue
  induction ds generalizing a with
  | nil => simp
  | cons c cs ih =>
    simp only [List.foldl_cons, List.length_cons]
    rw [ih (10 * a + (c.toNat - 48)), ih (10 * 0 + (c.toNat - 48))]
    ring

theorem digitChar_value (k : Nat) (hk : k < 10) : (Nat.digitChar k).toNat - 48 = k := by
  interval_cases k <;> rfl

theorem digitsValue_toDigitsCore (fuel n : Nat) (ds : List Char) (h : n < fuel) :
    digitsValue (Nat.toDigitsCore 10 fuel n ds) = n * 10 ^ ds.length + digitsValue ds := by
  induction fuel generalizing n ds with
  | zero => omega
  | succ fuel ih =>
    unfold Nat.toDigitsCore
    have hd := digitChar_value (n % 10) (Nat.mod_lt _ (by norm_num))
    by_cases h0 : n / 10 = 0
    · simp only [h0, if_true]
      have hn : n % 10 = n := by omega
      simp only [digitsValue, List.foldl_cons]
      rw [digitsValue_foldl, hd, hn]
      simp [digitsValue]
    · simp only [h0, if_false]
      rw [ih (n / 10) _ (by omega)]
      simp only [digitsValue, List.foldl_cons, List.length_cons]
      rw [digitsValue_foldl, hd]
      simp only [digitsValue, mul_zero, zero_add]
      have : n = 10 * (n / 10) + n % 10 := by omega
      generalize n / 10 = q at *
      generalize n % 10 = r at *
      subst this
      ring

theorem digitsValue_toString (n : Nat) : digitsValue (toString n).data = n := by
  show digitsValue (Nat.toDigits 10 n).asString.data = n
  unfold Nat.toDigits
  simp only [List.asString]
  rw [digitsValue_toDigitsCore _ _ _ (Nat.lt_succ_self n)]
  simp [digitsValue]

theorem toString_injective (a b : Nat) (h : toString a = toString b) : a = b := by
  have := congrArg (fun s => digitsValue s.data) h
  simpa [digitsValue_toString] using this

theorem toString_ne_empty (n : Nat) : toString n ≠ "" := by
  intro h
  have h0 : n = 0 := by
    have := congrArg (fun s => digitsValue s.data) h
    simp only [digitsValue_toString] at this
    exact this
  subst h0
  exact absurd h (by decide)

/-! ## The identifier invariant holds in every reachable store -/

theorem map_id_set (l : List Transaction) (i : Fin l.length) (u : Transaction)
    (hu : u._id = (l.get i)._id) :
    (l.set i u).map (fun t => t._id) = l.map (fun t => t._id) := by
  rw [List.map_set]
  apply List.ext_getElem
  · simp
  · intro n h1 h2
    by_cases hn : i.val = n
    · subst hn
      simp [hu]
    · simp [List.getElem_set_ne hn]

theorem IdInvariant_seed : IdInvariant seed := by
  refine ⟨by decide, by decide, ?_⟩
  intro t ht
  simp only [seed, List.mem_cons, List.mem_singleton, List.not_mem_nil, or_false] at ht
  rcases ht with rfl | rfl | rfl
  · exact ⟨1, by decide, by decide, by decide⟩
  · exact ⟨2, by decide, by decide, by decide⟩
  · exact ⟨3, by decide, by decide, by decide⟩

theorem fresh_id (s : Store) (h : IdInvariant s) : toString s.nextId ∉ ids s := by
  intro hmem
  obtain ⟨t, ht, hid⟩ := List.mem_map.mp hmem
  obtain ⟨k, _, hk, hkid⟩ := h.2.2 t ht
  have : k = s.nextId := toString_injective _ _ (by rw [← hkid]; exact hid)
  omega

theorem IdInvariant_append (now : String) (s : Store) (a : JSNum) (d : String) (body : JSValue)
    (h : IdInvariant s) :
    IdInvariant { transactions := s.transactions ++ [created now s a d body],
                  nextId := s.nextId + 1 } := by
  refine ⟨by simp, ?_, ?_⟩
  · have hf := fresh_id s h
    simp only [ids, List.map_append, List.map_cons, List.map_nil] at hf ⊢
    rw [List.nodup_append]
    refine ⟨h.2.1, List.nodup_singleton _, ?_⟩
    intro x hx hx'
    rw [List.mem_singleton] at hx'
    subst hx'
    exact hf hx
  · intro t ht
    rcases List.mem_append.mp ht with ht | ht
    · obtain ⟨k, h1, h2, h3⟩ := h.2.2 t ht
      exact ⟨k, h1, Nat.lt_succ_of_lt h2, h3⟩
    · rw [List.mem_singleton] at ht
      subst ht
      exact ⟨s.nextId, h.1, Nat.lt_succ_self _, rfl⟩

theorem IdInvariant_set (s : Store) (i : Fin s.transactions.length) (a : JSNum) (d : String)
    (body : JSValue) (h : IdInvariant s) :
    IdInvariant { transactions := s.transactions.set i (updated (s.transactions.get i) a d body),
                  nextId := s.nextId } := by
  refine ⟨h.1, ?_, ?_⟩
  · simp only [ids]
    rw [map_id_set s.transactions i (updated (s.transactions.get i) a d body) rfl]
    exact h.2.1
  · intro t ht
    rcases List.mem_or_eq_of_mem_set ht with ht | rfl
    · exact h.2.2 t ht
    · obtain ⟨k, h1, h2, h3⟩ := h.2.2 (s.transactions.get i) (List.get_mem _ _ _)
      exact ⟨k, h1, h2, h3⟩

theorem IdInvariant_erase (s : Store) (i : Nat) (h : IdInvariant s) :
    IdInvariant { transactions := s.transactions.eraseIdx i, nextId := s.nextId } := by
  refine ⟨h.1, ?_, ?_⟩
  · exact h.2.1.sublist ((List.eraseIdx_sublist _ _).map _)
  · intro t ht
    exact h.2.2 t ((List.eraseIdx_sublist _ _).subset ht)

theorem IdInvariant_handle (H : Host) (s : Store) (r : Request) (h : IdInvariant s) :
    IdInvariant (handle H s r).2 := by
  cases r with
  | get => simp only [handle, GET_store]; exact h
  | post now body =>
    simp only [handle]
    rcases POST_outcome H now s body with e | ⟨_, _, _, _, e⟩ | ⟨_, _, _, _, _, e⟩ |
      ⟨_, _, _, _, _, _, e⟩ | ⟨_, _, _, _, _, _, _, e⟩ |
      ⟨_, _, _, _, _, _, _, _, _, _, _, e⟩
    all_goals rw [e]
    all_goals first
      | exact h
      | exact IdInvariant_append _ _ _ _ _ h
  | put body =>
    simp only [handle]
    rcases PUT_outcome H s body with e | ⟨_, _, _, _, e⟩ | ⟨_, _, _, _, _, e⟩ |
      ⟨_, _, _, _, _, _, e⟩ | ⟨_, _, _, _, _, _, _, e⟩ | ⟨_, _, _, _, _, _, _, _, e⟩ |
      ⟨_, _, _, _, _, _, _, _, _, e⟩ | ⟨_, _, _, _, _, _, _, _, _, _, _, _, _, _, e⟩
    all_goals rw [e]
    all_goals first
      | exact h
      | exact IdInvariant_set _ _ _ _ _ h
  | delete body =>
    simp only [handle]
    rcases DELETE_outcome s body with e | ⟨_, _, _, _, e⟩ | ⟨_, _, _, _, _, e⟩ |
      ⟨_, _, _, _, _, _, e⟩
    all_goals rw [e]
    all_goals first
      | exact h
      | exact IdInvariant_erase _ _ h

theorem IdInvariant_reachable (H : Host) (s : Store) (h : Reachable H s) : IdInvariant s := by
  induction h with
  | seed => exact IdInvariant_seed
  | step s r _ ih => exact IdInvariant_handle H s r ih

/-! ## C3: a valid create -/

theorem not_nullish_of_amount (H : Host) (body : JSValue)
    (h1 : amountInvalid H (prop body "amount") = .ok false) : isNullish body = false := by
  cases body <;> first | rfl | (simp [prop, amountInvalid, toBoolean, pure, Except.pure] at h1)

/-- C3. For every store reachable from the seed store and every `POST` body on which none of
the four validation conditions holds, the response has status 201 and carries a record `t`
whose amount is `parseFloat` of the input amount, whose description is the input description
trimmed, whose date and type are the inputs, whose `createdAt` is the clock reading, and whose
id is the text of the counter and differs from the id of every record stored before; the store
afterwards is the old list with `t` appended at the end and the counter increased by one. -/
theorem POST_valid_creates_fresh_record (H : Host) (now : String) (s : Store)
    (hs : Reachable H s) (body : JSValue)
    (h1 : amountInvalid H (prop body "amount") = .ok false)
    (h2 : descriptionInvalid (prop body "description") = .ok false)
    (h3 : dateInvalid (prop body "date") = false)
    (h4 : typeInvalid (prop body "type") = false) :
    ∃ t, POST H now s (some body) =
        (⟨201, .record t⟩, { transactions := s.transactions ++ [t], nextId := s.nextId + 1 }) ∧
      parseFloat H (prop body "amount") = .ok t.amount ∧
      (∃ d, prop body "description" = .str d ∧ t.description = trim d) ∧
      t.date = prop body "date" ∧ t.type = prop body "type" ∧ t.createdAt = now ∧
      t._id = toString s.nextId ∧ ∀ u ∈ s.transactions, u._id ≠ t._id := by
  have hn := not_nullish_of_amount H body h1
  obtain ⟨a, d, ha, hd, hp⟩ := POST_valid H now s body hn h1 h2 h3 h4
  refine ⟨created now s a d body, hp, ha, ⟨d, hd, rfl⟩, rfl, rfl, rfl, rfl, ?_⟩
  intro u hu heq
  exact fresh_id s (IdInvariant_reachable H s hs)
    (List.mem_map.mpr ⟨u, hu, heq⟩)

/-- C3 on the seed store with the body `{amount: 50, description: 'Coffee', date: '2024-01-20',
type: 'expense'}`. -/
theorem POST_valid_creates_fresh_record_witness :
    ∃ t, POST idealHost "2024-01-20T09:00:00.000Z" seed (some coffeeBody) =
        (⟨201, .record t⟩,
          { transactions := seed.transactions ++ [t], nextId := seed.nextId + 1 }) ∧
      parseFloat idealHost (prop coffeeBody "amount") = .ok t.amount ∧
      (∃ d, prop coffeeBody "description" = .str d ∧ t.description = trim d) ∧
      t.date = prop coffeeBody "date" ∧ t.type = prop coffeeBody "type" ∧
      t.createdAt = "2024-01-20T09:00:00.000Z" ∧
      t._id = toString seed.nextId ∧ ∀ u ∈ seed.transactions, u._id ≠ t._id :=
  POST_valid_creates_fresh_record idealHost "2024-01-20T09:00:00.000Z" seed Reachable.seed
    coffeeBody rfl rfl rfl rfl

/-! ## C4: the order of the validation checks of `POST` -/

/-- C4 as stated fails. In the body `{amount: 10, description: 5, date: '2024-01-01',
type: 'transfer'}` the type check fails, yet for every host, clock reading and store the
response is not a 400: the description check raises (a number has no `trim` method) and the
`catch` block answers 500. -/
theorem POST_failing_check_without_400 :
    typeInvalid (prop numericDescriptionBody "type") = true ∧
    ∀ (H : Host) (now : String) (s : Store),
      POST H now s (some numericDescriptionBody) =
        (⟨500, .error "Failed to create transaction"⟩, s) :=
  ⟨rfl, fun H now s => POST_description_throws H now s numericDescriptionBody rfl rfl () rfl⟩

/-- C4, amended. `POST` evaluates the checks in the order amount, description, date, type, and
the first failing check decides the response provided every check before it passes: for every
body other than `null`, a failing amount check gives 400 `Amount must be greater than 0`
whatever the other fields contain; a passing amount check and a failing description check give
400 `Description is required`; passing amount and description checks and a failing date check
give 400 `Date is required`; three passing checks and a failing type check give 400
`Type must be either income or expense`; each time the store is left as it was. And for every
request whatsoever the response is a 400 only if some check fails. -/
theorem POST_first_failing_check_decides (H : Host) (now : String) (s : Store) (body : JSValue)
    (hn : isNullish body = false) :
    (amountInvalid H (prop body "amount") = .ok true →
      POST H now s (some body) = (⟨400, .error "Amount must be greater than 0"⟩, s)) ∧
    (amountInvalid H (prop body "amount") = .ok false →
      descriptionInvalid (prop body "description") = .ok true →
      POST H now s (some body) = (⟨400, .error "Description is required"⟩, s)) ∧
    (amountInvalid H (prop body "amount") = .ok false →
      descriptionInvalid (prop body "description") = .ok false →
      dateInvalid (prop body "date") = true →
      POST H now s (some body) = (⟨400, .error "Date is required"⟩, s)) ∧
    (amountInvalid H (prop body "amount") = .ok false →
      descriptionInvalid (prop body "description") = .ok false →
      dateInvalid (prop body "date") = false →
      typeInvalid (prop body "type") = true →
      POST H now s (some body) =
        (⟨400, .error "Type must be either income or expense"⟩, s)) ∧
    (∀ request : Option JSValue, (POST H now s request).1.status = 400 →
      ∃ b, request = some b ∧
        (amountInvalid H (prop b "amount") = .ok true ∨
          descriptionInvalid (prop b "description") = .ok true ∨
          dateInvalid (prop b "date") = true ∨ typeInvalid (prop b "type") = true)) := by
  refine ⟨POST_amount_invalid H now s body hn, POST_description_invalid H now s body hn,
    POST_date_invalid H now s body hn, POST_type_invalid H now s body hn, ?_⟩
  intro request h
  rcases POST_outcome H now s request with e | ⟨b, hb, _, c1, _⟩ | ⟨b, hb, _, _, c2, _⟩ |
    ⟨b, hb, _, _, _, c3, _⟩ | ⟨b, hb, _, _, _, _, c4, _⟩ |
    ⟨_, _, _, _, _, _, _, _, _, _, _, e⟩
  · rw [e] at h; simp at h
  · exact ⟨b, hb, Or.inl c1⟩
  · exact ⟨b, hb, Or.inr (Or.inl c2)⟩
  · exact ⟨b, hb, Or.inr (Or.inr (Or.inl c3))⟩
  · exact ⟨b, hb, Or.inr (Or.inr (Or.inr c4))⟩
  · rw [e] at h; simp at h

/-- C4, amended, on the body `{amount: 10, description: '  ', type: 'transfer'}`: description,
date and type all fail their checks, and the response names the description. -/
theorem POST_first_failing_check_decides_witness :
    isNullish blankDescriptionBody = false ∧
    dateInvalid (prop blankDescriptionBody "date") = true ∧
    typeInvalid (prop blankDescriptionBody "type") = true ∧
    POST idealHost "2024-03-01T00:00:00.000Z" seed (some blankDescriptionBody) =
      (⟨400, .error "Description is required"⟩, seed) :=
  ⟨rfl, rfl, rfl,
    (POST_first_failing_check_decides idealHost "2024-03-01T00:00:00.000Z" seed
      blankDescriptionBody rfl).2.1 rfl rfl⟩

/-! ## C5: the listed violations are rejected -/

theorem findIndex_of_mem {α : Type} (p : α → Bool) (l : List α) (h : ∃ x ∈ l, p x = true) :
    ∃ i, findIndex p l = some i := by
  cases hf : findIndex p l with
  | some i => exact ⟨i, rfl⟩
  | none =>
    obtain ⟨x, hx, hpx⟩ := h
    rw [(findIndex_eq_none p l).mp hf x hx] at hpx
    cases hpx

/-- C6. For every store and every `PUT` body that passes validation (the id is present and none
of the four field conditions holds) and whose id matches a stored record, the response is 200
with the updated record `u`. The record written over is the first one with that id, at index
`i`; `u` keeps its id and `createdAt`, its amount is `parseFloat` of the input amount, its
description is the trimmed input, its date and type are the inputs. Afterwards the list has `u`
at index `i`, every other index holds the record it held before, the number of records and
`nextId` are unchanged. -/
theorem PUT_valid_updates_in_place (H : Host) (s : Store) (body : JSValue)
    (h0 : toBoolean (prop body "_id") = true)
    (h1 : amountInvalid H (prop body "amount") = .ok false)
    (h2 : descriptionInvalid (prop body "description") = .ok false)
    (h3 : dateInvalid (prop body "date") = false)
    (h4 : typeInvalid (prop body "type") = false)
    (hm : ∃ t ∈ s.transactions, idMatches body t = true) :
    ∃ (i : Fin s.transactions.length) (u : Transaction),
      idMatches body (s.transactions.get i) = true ∧
      (∀ j : Fin s.transactions.length, j.val < i.val →
        idMatches body (s.transactions.get j) = false) ∧
      (PUT H s (some body)).1.status = 200 ∧
      (PUT H s (some body)).1.body = .record u ∧
      u._id = (s.transactions.get i)._id ∧
      u.createdAt = (s.transactions.get i).createdAt ∧
      parseFloat H (prop body "amount") = .ok u.amount ∧
      (∃ d, prop body "description" = .str d ∧ u.description = trim d) ∧
      u.date = prop body "date" ∧ u.type = prop body "type" ∧
      (PUT H s (some body)).2.transactions = s.transactions.set i u ∧
      (PUT H s (some body)).2.transactions[i.val]? = some u ∧
      (∀ j : Nat, j ≠ i.val →
        (PUT H s (some body)).2.transactions[j]? = s.transactions[j]?) ∧
      (PUT H s (some body)).2.transactions.length = s.transactions.length ∧
      (PUT H s (some body)).2.nextId = s.nextId := by
  have hn := not_nullish_of_amount H body h1
  obtain ⟨i, hi⟩ := findIndex_of_mem (idMatches body) s.transactions hm
  obtain ⟨hfound, hfirst⟩ := findIndex_some _ _ i hi
  obtain ⟨a, d, ha, hd, hp⟩ := PUT_found H s body hn h0 h1 h2 h3 h4 i hi
  refine ⟨i, updated (s.transactions.get i) a d body, hfound, hfirst, ?_, ?_, rfl, rfl, ha,
    ⟨d, hd, rfl⟩, rfl, rfl, ?_, ?_, ?_, ?_, ?_⟩
  all_goals rw [hp]
  · simp
  · intro j hj
    simp [List.getElem?_set_ne (Ne.symm hj)]
  · simp

/-- C6 on the seed store: the update of record `'2'`. -/
theorem PUT_valid_updates_in_place_witness :
    ∃ (i : Fin seed.transactions.length) (u : Transaction),
      idMatches raiseBody (seed.transactions.get i) = true ∧
      (∀ j : Fin seed.transactions.length, j.val < i.val →
        idMatches raiseBody (seed.transactions.get j) = false) ∧
      (PUT idealHost seed (some raiseBody)).1.status = 200 ∧
      (PUT idealHost seed (some raiseBody)).1.body = .record u ∧
      u._id = (seed.transactions.get i)._id ∧
      u.createdAt = (seed.transactions.get i).createdAt ∧
      parseFloat idealHost (prop raiseBody "amount") = .ok u.amount ∧
      (∃ d, prop raiseBody "description" = .str d ∧ u.description = trim d) ∧
      u.date = prop raiseBody "date" ∧ u.type = prop raiseBody "type" ∧
      (PUT idealHost seed (some raiseBody)).2.transactions = seed.transactions.set i u ∧
      (PUT idealHost seed (some raiseBody)).2.transactions[i.val]? = some u ∧
      (∀ j : Nat, j ≠ i.val →
        (PUT idealHost seed (some raiseBody)).2.transactions[j]? = seed.transactions[j]?) ∧
      (PUT idealHost seed (some raiseBody)).2.transactions.length = seed.transactions.length ∧
      (PUT idealHost seed (some raiseBody)).2.nextId = seed.nextId :=
  PUT_valid_updates_in_place idealHost seed raiseBody rfl rfl rfl rfl rfl
    ⟨_, List.mem_cons_of_mem _ (List.mem_cons_self _ _), rfl⟩

/-! ## C7: an update of an unknown id -/

theorem seed_has_no_99 (body : JSValue) (h : prop body "_id" = .str "99") :
    ∀ t ∈ seed.transactions, idMatches body t = false := by
  intro t ht
  simp only [seed, List.mem_cons, List.mem_singleton, List.not_mem_nil, or_false] at ht
  rcases ht with rfl | rfl | rfl <;> simp [idMatches, h, strictEq]

/-- C7 as stated fails. The id `'99'` of the body `{_id: '99', amount: 0, description: 'x',
date: '2024-02-01', type: 'income'}` matches no record of the seed store, yet for every host
the response to the `PUT` is the 400 of the amount check and not the 404: the field checks run
before the lookup. -/
theorem PUT_unknown_id_without_404 :
    (∀ t ∈ seed.transactions, idMatches unknownIdZeroAmountBody t = false) ∧
    ∀ H : Host, PUT H seed (some unknownIdZeroAmountBody) =
      (⟨400, .error "Amount must be greater than 0"⟩, seed) :=
  ⟨seed_has_no_99 unknownIdZeroAmountBody rfl,
    fun H => PUT_amount_invalid H seed unknownIdZeroAmountBody rfl rfl rfl⟩

/-- C7, amended. For every store and every `PUT` body whose id matches no stored record, the
store (its records, their number and order, and `nextId`) is unchanged; and when moreover the
id is present and none of the four field conditions holds, the response is the not-found error:
status 404, error `Transaction not found`. -/
theorem PUT_unknown_id_leaves_store (H : Host) (s : Store) (body : JSValue)
    (hnone : ∀ t ∈ s.transactions, idMatches body t = false) :
    (PUT H s (some body)).2 = s ∧
    (toBoolean (prop body "_id") = true →
      amountInvalid H (prop body "amount") = .ok false →
      descriptionInvalid (prop body "description") = .ok false →
      dateInvalid (prop body "date") = false →
      typeInvalid (prop body "type") = false →
      PUT H s (some body) = (⟨404, .error "Transaction not found"⟩, s)) := by
  have hf : findIndex (idMatches body) s.transactions = none :=
    (findIndex_eq_none _ _).mpr hnone
  constructor
  · rcases PUT_outcome H s (some body) with e | ⟨_, _, _, _, e⟩ | ⟨_, _, _, _, _, e⟩ |
      ⟨_, _, _, _, _, _, e⟩ | ⟨_, _, _, _, _, _, _, e⟩ | ⟨_, _, _, _, _, _, _, _, e⟩ |
      ⟨_, _, _, _, _, _, _, _, _, e⟩ | ⟨b, i, _, _, hb, _, _, _, _, _, _, hi, _, _, e⟩
    all_goals first
      | (cases hb; rw [hf] at hi; cases hi)
      | rw [e]
  · intro h0 h1 h2 h3 h4
    exact PUT_not_found H s body (not_nullish_of_amount H body h1) h0 h1 h2 h3 h4 hf

/-- C7, amended, on the seed store with the id `'99'` and valid fields. -/
theorem PUT_unknown_id_leaves_store_witness :
    (PUT idealHost seed (some unknownIdBody)).2 = seed ∧
    PUT idealHost seed (some unknownIdBody) =
      (⟨404, .error "Transaction not found"⟩, seed) :=
  have h := PUT_unknown_id_leaves_store idealHost seed unknownIdBody
    (seed_has_no_99 unknownIdBody rfl)
  ⟨h.1, h.2 rfl rfl rfl rfl rfl⟩

/-! ## Facts used for `DELETE` -/

theorem idMatches_iff (body : JSValue) (t : Transaction) :
    idMatches body t = true ↔ prop body "_id" = .str t._id := by
  unfold idMatches
  cases h : prop body "_id" with
  | str i => simp [strictEq, eq_comm]
  | _ => simp [strictEq]

theorem idMatches_of_id (body : JSValue) (id : String) (hid : prop body "_id" = .str id)
    (t : Transaction) : idMatches body t = true ↔ t._id = id := by
  rw [idMatches_iff, hid]
  constructor
  · intro h; injection h with h; exact h.symm
  · intro h; rw [h]

theorem eraseIdx_eq_filter (p : Transaction → Bool) (l : List Transaction)
    (hp : ∀ a b, p a = true → p b = true → a._id = b._id)
    (hnd : (l.map (fun t => t._id)).Nodup) (i : Fin l.length)
    (hi : findIndex p l = some i) : l.eraseIdx i = l.filter (fun t => !p t) := by
  induction l with
  | nil => exact i.elim0
  | cons x xs ih =>
    rw [List.map_cons, List.nodup_cons] at hnd
    by_cases hx : p x = true
    · simp only [findIndex, hx, if_true, Option.some.injEq] at hi
      subst hi
      have hall : ∀ t ∈ xs, (!p t) = true := by
        intro t ht
        cases hpt : p t with
        | false => rfl
        | true =>
          exact absurd (List.mem_map.mpr ⟨t, ht, hp t x hpt hx⟩) hnd.1
      simp [List.filter_cons, hx, List.filter_eq_self.mpr hall]
    · simp only [findIndex, hx, Bool.false_eq_true, if_false, Option.map_eq_some'] at hi
      obtain ⟨k, hk, rfl⟩ := hi
      have := ih hnd.2 k hk
      simp [List.filter_cons, hx, this]

theorem insertSorted_perm {α : Type} (cmp : α → α → Except Unit JSNum) (x : α) (l r : List α)
    (h : insertSorted cmp x l = .ok r) : r.Perm (x :: l) := by
  induction l generalizing r with
  | nil =>
    simp only [insertSorted, pure, Except.pure, Except.ok.injEq] at h
    subst h
    exact List.Perm.refl _
  | cons y ys ih =>
    simp only [insertSorted, bind, Except.bind] at h
    cases hc : cmp x y with
    | error e => simp [hc] at h
    | ok v =>
      simp only [hc] at h
      cases hv : isPositive v with
      | false =>
        simp only [hv, Bool.false_eq_true, if_false, pure, Except.pure, Except.ok.injEq] at h
        subst h
        exact List.Perm.refl _
      | true =>
        simp only [hv, if_true] at h
        cases hr : insertSorted cmp x ys with
        | error e => simp [hr] at h
        | ok rest =>
          simp only [hr, pure, Except.pure, Except.ok.injEq] at h
          subst h
          exact ((ih rest hr).cons y).trans (List.Perm.swap x y ys)

theorem sortWith_perm {α : Type} (cmp : α → α → Except Unit JSNum) (l r : List α)
    (h : sortWith cmp l = .ok r) : r.Perm l := by
  induction l generalizing r with
  | nil =>
    simp only [sortWith, pure, Except.pure, Except.ok.injEq] at h
    subst h
    exact List.Perm.refl _
  | cons x xs ih =>
    simp only [sortWith, bind, Except.bind] at h
    cases hs : sortWith cmp xs with
    | error e => simp [hs] at h
    | ok sorted =>
      simp only [hs] at h
      exact (insertSorted_perm cmp x sorted r h).trans ((ih sorted hs).cons x)

theorem GET_list_perm (H : Host) (s : Store) (l : List Transaction)
    (h : (GET H s).1.body = .list l) : l.Perm s.transactions := by
  unfold GET at h
  cases hs : sortWith (compareDates H) s.transactions with
  | error e => simp [hs] at h
  | ok sorted =>
    simp only [hs, ResponseBody.list.injEq] at h
    subst h
    exact sortWith_perm _ _ _ hs

/-! ## C8: a successful delete -/

theorem DELETE_of_stored_id (H : Host) (s : Store) (hs : Reachable H s) (body : JSValue)
    (id : String) (hid : prop body "_id" = .str id) (hm : id ∈ ids s) :
    ∃ i : Fin s.transactions.length, (s.transactions.get i)._id = id ∧
      DELETE s (some body) =
        (⟨200, .deleted "Transaction deleted successfully" (s.transactions.get i)⟩,
          { transactions := s.transactions.filter (fun t => decide (t._id ≠ id)),
            nextId := s.nextId }) ∧
      (s.transactions.filter (fun t => decide (t._id ≠ id))).length + 1 =
        s.transactions.length := by
  have hinv := IdInvariant_reachable H s hs
  obtain ⟨t, ht, hti⟩ := List.mem_map.mp hm
  have hn : isNullish body = false := by
    cases body <;> first | rfl | (simp [prop] at hid)
  have h0 : toBoolean (prop body "_id") = true := by
    obtain ⟨k, _, _, hk⟩ := hinv.2.2 t ht
    have hne : id ≠ "" := by
      rw [← hti, hk]
      exact toString_ne_empty k
    simp [hid, toBoolean, hne]
  obtain ⟨i, hi⟩ := findIndex_of_mem (idMatches body) s.transactions
    ⟨t, ht, (idMatches_of_id body id hid t).mpr hti⟩
  have hgi : (s.transactions.get i)._id = id :=
    (idMatches_of_id body id hid _).mp (findIndex_some _ _ i hi).1
  have herase : s.transactions.eraseIdx i =
      s.transactions.filter (fun t => decide (t._id ≠ id)) := by
    rw [eraseIdx_eq_filter (idMatches body) s.transactions ?_ hinv.2.1 i hi]
    · apply List.filter_congr
      intro x _
      by_cases hx : x._id = id
      · simp [hx, (idMatches_of_id body id hid x).mpr hx]
      · have : idMatches body x = false := by
          cases hc : idMatches body x with
          | false => rfl
          | true => exact absurd ((idMatches_of_id body id hid x).mp hc) hx
        simp [hx, this]
    · intro a b ha hb
      rw [(idMatches_of_id body id hid a).mp ha, (idMatches_of_id body id hid b).mp hb]
  refine ⟨i, hgi, ?_, ?_⟩
  · rw [DELETE_found s body hn h0 i hi, herase]
  · rw [← herase, List.length_eraseIdx]
    have := i.isLt
    simp only [Fin.is_lt, if_true]
    omega

/-- C8. For every store reachable from the seed store and every `DELETE` body whose id is the
id of a stored record, the response is status 200 carrying the message
`Transaction deleted successfully` and the removed record, which is a stored record with that
id. The store afterwards is the old list without the records of that id, the others in their
previous order: it has exactly one record fewer, no record with that id, and an unchanged
`nextId`; and no list a subsequent `GET` returns contains a record with that id or the removed
record. -/
theorem DELETE_removes_exactly_one (H : Host) (s : Store) (hs : Reachable H s)
    (body : JSValue) (id : String) (hid : prop body "_id" = .str id) (hm : id ∈ ids s) :
    ∃ removed, removed ∈ s.transactions ∧ removed._id = id ∧
      (DELETE s (some body)).1.status = 200 ∧
      (DELETE s (some body)).1.body =
        .deleted "Transaction deleted successfully" removed ∧
      (DELETE s (some body)).2.transactions =
        s.transactions.filter (fun t => decide (t._id ≠ id)) ∧
      (DELETE s (some body)).2.transactions.length + 1 = s.transactions.length ∧
      (DELETE s (some body)).2.nextId = s.nextId ∧
      id ∉ ids (DELETE s (some body)).2 ∧
      ∀ l, (GET H (DELETE s (some body)).2).1.body = .list l →
        id ∉ l.map (fun t => t._id) ∧ l.length + 1 = s.transactions.length := by
  obtain ⟨i, hgi, hd, hlen⟩ := DELETE_of_stored_id H s hs body id hid hm
  have hnot : id ∉ ids (DELETE s (some body)).2 := by
    rw [hd]
    intro hmem
    obtain ⟨t, ht, hti⟩ := List.mem_map.mp hmem
    have := (List.mem_filter.mp ht).2
    simp only [decide_eq_true_eq] at this
    exact this hti
  refine ⟨s.transactions.get i, List.get_mem _ _ _, hgi, ?_, ?_, ?_, ?_, ?_, hnot, ?_⟩
  · rw [hd]
  · rw [hd]
  · rw [hd]
  · rw [hd]; exact hlen
  · rw [hd]
  · intro l hl
    have hperm := GET_list_perm H _ l hl
    constructor
    · intro hmem
      exact hnot ((hperm.map _).subset hmem)
    · rw [hperm.length_eq, hd]
      exact hlen

/-- C8 on the seed store: the delete of record `'3'`. -/
theorem DELETE_removes_exactly_one_witness :
    ∃ removed, removed ∈ seed.transactions ∧ removed._id = "3" ∧
      (DELETE seed (some deleteThreeBody)).1.status = 200 ∧
      (DELETE seed (some deleteThreeBody)).1.body =
        .deleted "Transaction deleted successfully" removed ∧
      (DELETE seed (some deleteThreeBody)).2.transactions =
        seed.transactions.filter (fun t => decide (t._id ≠ "3")) ∧
      (DELETE seed (some deleteThreeBody)).2.transactions.length + 1 =
        seed.transactions.length ∧
      (DELETE seed (some deleteThreeBody)).2.nextId = seed.nextId ∧
      "3" ∉ ids (DELETE seed (some deleteThreeBody)).2 ∧
      ∀ l, (GET idealHost (DELETE seed (some deleteThreeBody)).2).1.body = .list l →
        "3" ∉ l.map (fun t => t._id) ∧ l.length + 1 = seed.transactions.length :=
  DELETE_removes_exactly_one idealHost seed Reachable.seed deleteThreeBody "3" rfl
    (by decide)

/-! ## C9: deleting twice -/

/-- C9. For every store reachable from the seed store and every id: if a `DELETE` whose body
carries that id succeeds (status 200), then a second `DELETE` carrying the same id, issued on
the store the first one left, returns the not-found error (status 404, error
`Transaction not found`) and leaves that store unchanged. -/
theorem DELETE_twice_not_found (H : Host) (s : Store) (hs : Reachable H s)
    (first second : JSValue) (hsame : prop second "_id" = prop first "_id")
    (hok : (DELETE s (some first)).1.status = 200) :
    DELETE (DELETE s (some first)).2 (some second) =
      (⟨404, .error "Transaction not found"⟩, (DELETE s (some first)).2) := by
  rcases DELETE_outcome s (some first) with e | ⟨_, _, _, _, e⟩ | ⟨_, _, _, _, _, e⟩ |
    ⟨b, i, hb, _, h0, hi, _⟩
  · rw [e] at hok; simp at hok
  · rw [e] at hok; simp at hok
  · rw [e] at hok; simp at hok
  · cases hb
    have hid : prop first "_id" = .str (s.transactions.get i)._id :=
      (idMatches_iff first _).mp (findIndex_some _ _ i hi).1
    have hm : (s.transactions.get i)._id ∈ ids s :=
      List.mem_map.mpr ⟨_, List.get_mem _ _ _, rfl⟩
    obtain ⟨_, _, hd, _⟩ := DELETE_of_stored_id H s hs first _ hid hm
    have hid2 : prop second "_id" = .str (s.transactions.get i)._id := by rw [hsame, hid]
    have hn : isNullish second = false := by
      cases second <;> first | rfl | (simp [prop] at hid2)
    have h02 : toBoolean (prop second "_id") = true := by rw [hsame]; exact h0
    refine DELETE_not_found _ second hn h02 ((findIndex_eq_none _ _).mpr ?_)
    intro t ht
    rw [hd] at ht
    have hne := (List.mem_filter.mp ht).2
    simp only [decide_eq_true_eq] at hne
    cases hc : idMatches second t with
    | false => rfl
    | true => exact absurd ((idMatches_of_id second _ hid2 t).mp hc) hne

/-- C9 on the seed store: record `'3'` deleted twice. -/
theorem DELETE_twice_not_found_witness :
    (DELETE seed (some deleteThreeBody)).1.status = 200 ∧
    DELETE (DELETE seed (some deleteThreeBody)).2 (some deleteThreeBody) =
      (⟨404, .error "Transaction not found"⟩, (DELETE seed (some deleteThreeBody)).2) :=
  have hok : (DELETE seed (some deleteThreeBody)).1.status = 200 := by
    rw [DELETE_found seed deleteThreeBody rfl rfl ⟨2, by decide⟩ rfl]
  ⟨hok, DELETE_twice_not_found idealHost seed Reachable.seed deleteThreeBody deleteThreeBody
    rfl hok⟩

/-! ## C10: the amounts of stored records -/

theorem parseFloat_negative_text (H : Host) :
    parseFloat H (.str "-5abc") = .ok (JSNum.fin (-5)) := by
  have hscan : scanDecimal (trimStart "-5abc".data) =
      some (Literal.decimal true 5 0, "abc".data) := by decide
  simp only [parseFloat, parseFloatString, hscan, literalValue, toDouble, pure, Except.pure]
  norm_num

/-- C10 fails on the code. On every store, for every host, `POST` accepts the body
`{amount: '-5abc', description: 'Refund', date: '2024-02-01', type: 'expense'}` with status 201
and appends a record whose amount is the number `-5`: the check `amount <= 0` converts the text
with `ToNumber`, which gives `NaN`, while the stored value is `parseFloat` of the text. With the
amount `'abc'` the record stored has the amount `NaN`. Hence a store with a record whose amount
is not greater than 0 is reachable from the seed store. -/
theorem POST_stores_non_positive_amount (H : Host) (now : String) (s : Store) :
    (∃ t, POST H now s (some negativeTextAmountBody) =
        (⟨201, .record t⟩, { transactions := s.transactions ++ [t], nextId := s.nextId + 1 }) ∧
      t.amount = JSNum.fin (-5)) ∧
    (∃ t, POST H now s (some textAmountBody) =
        (⟨201, .record t⟩, { transactions := s.transactions ++ [t], nextId := s.nextId + 1 }) ∧
      t.amount = JSNum.nan) ∧
    ∃ s1 t, Reachable H s1 ∧ t ∈ s1.transactions ∧ t.amount = JSNum.fin (-5) := by
  have key : ∀ s0 : Store, ∃ t, POST H now s0 (some negativeTextAmountBody) =
        (⟨201, .record t⟩,
          { transactions := s0.transactions ++ [t], nextId := s0.nextId + 1 }) ∧
      t.amount = JSNum.fin (-5) := by
    intro s0
    obtain ⟨a, d, ha, _, hp⟩ := POST_valid H now s0 negativeTextAmountBody rfl rfl rfl rfl rfl
    have ha' : a = JSNum.fin (-5) := by
      have h := parseFloat_negative_text H
      have e : prop negativeTextAmountBody "amount" = .str "-5abc" := rfl
      rw [e, h] at ha
      injection ha with ha
      exact ha.symm
    exact ⟨_, hp, ha'⟩
  refine ⟨key s, ?_, ?_⟩
  · obtain ⟨a, d, ha, _, hp⟩ := POST_valid H now s textAmountBody rfl rfl rfl rfl rfl
    have ha' : a = JSNum.nan := by
      have h : parseFloat H (prop textAmountBody "amount") = .ok JSNum.nan := rfl
      rw [h] at ha
      injection ha with ha
      exact ha.symm
    exact ⟨_, hp, ha'⟩
  · obtain ⟨t, hp, ht⟩ := key seed
    refine ⟨(handle H seed (.post now (some negativeTextAmountBody))).2, t,
      Reachable.step seed _ Reachable.seed, ?_, ht⟩
    show t ∈ (POST H now seed (some negativeTextAmountBody)).2.transactions
    rw [hp]
    simp

/-! ## C11: the identifier invariant -/

theorem nextId_le_handle (H : Host) (s : Store) (r : Request) :
    s.nextId ≤ (handle H s r).2.nextId := by
  cases r with
  | get => simp only [handle, GET_store]; exact le_refl _
  | post now body =>
    simp only [handle]
    rcases POST_outcome H now s body with e | ⟨_, _, _, _, e⟩ | ⟨_, _, _, _, _, e⟩ |
      ⟨_, _, _, _, _, _, e⟩ | ⟨_, _, _, _, _, _, _, e⟩ |
      ⟨_, _, _, _, _, _, _, _, _, _, _, e⟩
    all_goals rw [e]
    all_goals simp
  | put body =>
    simp only [handle]
    rcases PUT_outcome H s body with e | ⟨_, _, _, _, e⟩ | ⟨_, _, _, _, _, e⟩ |
      ⟨_, _, _, _, _, _, e⟩ | ⟨_, _, _, _, _, _, _, e⟩ | ⟨_, _, _, _, _, _, _, _, e⟩ |
      ⟨_, _, _, _, _, _, _, _, _, e⟩ | ⟨_, _, _, _, _, _, _, _, _, _, _, _, _, _, e⟩
    all_goals rw [e]
  | delete body =>
    simp only [handle]
    rcases DELETE_outcome s body with e | ⟨_, _, _, _, e⟩ | ⟨_, _, _, _, _, e⟩ |
      ⟨_, _, _, _, _, _, e⟩
    all_goals rw [e]

theorem nextId_le_run (H : Host) (s : Store) (rs : List Request) :
    s.nextId ≤ (run H s rs).nextId := by
  induction rs generalizing s with
  | nil => exact le_refl _
  | cons r rest ih => exact le_trans (nextId_le_handle H s r) (ih _)

theorem POST_created_id (H : Host) (now : String) (s : Store) (request : Option JSValue)
    (t : Transaction) (h : (POST H now s request).1 = ⟨201, .record t⟩) :
    t._id = toString s.nextId := by
  rcases POST_outcome H now s request with e | ⟨_, _, _, _, e⟩ | ⟨_, _, _, _, _, e⟩ |
    ⟨_, _, _, _, _, _, e⟩ | ⟨_, _, _, _, _, _, _, e⟩ |
    ⟨_, _, _, _, _, _, _, _, _, _, _, e⟩
  all_goals rw [e] at h
  all_goals simp only [Response.mk.injEq, ResponseBody.record.injEq] at h
  all_goals first
    | (exact absurd h.1 (by decide))
    | (rw [← h.2]; rfl)

/-- C11. Identifier invariant. In every store reachable from the seed store the ids of the
stored records are pairwise distinct and each is the decimal text of a positive integer below
`nextId`; no request decreases `nextId`; and the id a later `POST` assigns, after any further
requests, is different from the id of every record that is in the store now, whether or not
that record has been deleted in between. (Every id a run assigns is the id of a stored record
right after it is assigned, so this covers all ids assigned earlier in the run.) -/
theorem identifiers_distinct_and_never_reused (H : Host) (s : Store) (hs : Reachable H s) :
    (ids s).Nodup ∧
    (∀ t ∈ s.transactions, ∃ k : Nat, 1 ≤ k ∧ k < s.nextId ∧ t._id = toString k) ∧
    (∀ r : Request, s.nextId ≤ (handle H s r).2.nextId) ∧
    (∀ rs : List Request, s.nextId ≤ (run H s rs).nextId) ∧
    ∀ t ∈ s.transactions, ∀ (rs : List Request) (now : String) (body : Option JSValue)
      (t1 : Transaction),
      (POST H now (run H s rs) body).1 = ⟨201, .record t1⟩ → t1._id ≠ t._id := by
  have hinv := IdInvariant_reachable H s hs
  refine ⟨hinv.2.1, hinv.2.2, nextId_le_handle H s, nextId_le_run H s, ?_⟩
  intro t ht rs now body t1 h1 heq
  obtain ⟨k, _, hk, hkid⟩ := hinv.2.2 t ht
  have h2 := POST_created_id H now _ body t1 h1
  have hle := nextId_le_run H s rs
  have : (run H s rs).nextId = k := toString_injective _ _ (by rw [← h2, heq, hkid])
  omega

/-- C11 on the seed store. -/
theorem identifiers_distinct_and_never_reused_witness :
    (ids seed).Nodup ∧
    (∀ t ∈ seed.transactions, ∃ k : Nat, 1 ≤ k ∧ k < seed.nextId ∧ t._id = toString k) ∧
    (∀ r : Request, seed.nextId ≤ (handle idealHost seed r).2.nextId) ∧
    (∀ rs : List Request, seed.nextId ≤ (run idealHost seed rs).nextId) ∧
    ∀ t ∈ seed.transactions, ∀ (rs : List Request) (now : String) (body : Option JSValue)
      (t1 : Transaction),
      (POST idealHost now (run idealHost seed rs) body).1 = ⟨201, .record t1⟩ →
        t1._id ≠ t._id :=
  identifiers_distinct_and_never_reused idealHost seed Reachable.seed

/-! ## C12: stored records are well formed -/

theorem trimStart_of_prefix (y z : List Char) (hy : trimStart y = y) (hz : z <+: y) :
    trimStart z = z := by
  unfold trimStart at *
  rw [List.dropWhile_eq_self_iff] at hy ⊢
  intro hl
  obtain ⟨w, rfl⟩ := hz
  have hl' : 0 < (z ++ w).length := by rw [List.length_append]; omega
  have := hy hl'
  simpa [List.getElem_append_left hl] using this

theorem trim_trim (s : String) : trim (trim s) = trim s := by
  unfold trim
  have h1 : trimStart (trimStart s.data) = trimStart s.data :=
    List.dropWhile_idempotent _ _
  have h2 : trimStart (trimEnd (trimStart s.data)) = trimEnd (trimStart s.data) :=
    trimStart_of_prefix _ _ h1 (List.rdropWhile_prefix _ _)
  have h3 : trimEnd (trimEnd (trimStart s.data)) = trimEnd (trimStart s.data) :=
    List.rdropWhile_idempotent _ _
  simp only [h2, h3]

theorem typeInvalid_false (v : JSValue) (h : typeInvalid v = false) :
    v = .str "income" ∨ v = .str "expense" := by
  cases v with
  | str t =>
    simp only [typeInvalid, includes, Bool.not_eq_false'] at h
    simp only [List.contains_cons, List.contains_nil, Bool.or_false, Bool.or_eq_true,
      beq_iff_eq] at h
    rcases h with h | h
    · exact Or.inl (by rw [h])
    · exact Or.inr (by rw [h])
  | _ => simp [typeInvalid, includes] at h

theorem WellFormed_fields (old : Transaction) (a : JSNum) (d : String) (body : JSValue)
    (h2 : descriptionInvalid (prop body "description") = .ok false)
    (hd : prop body "description" = .str d)
    (h4 : typeInvalid (prop body "type") = false) :
    WellFormed (updated old a d body) := by
  obtain ⟨d1, hd1, hne⟩ := descriptionInvalid_false _ h2
  rw [hd] at hd1
  injection hd1 with hd1
  subst hd1
  refine ⟨?_, trim_trim d, typeInvalid_false _ h4⟩
  show trim (trim d) ≠ ""
  rw [trim_trim]
  exact hne

theorem WellFormed_seed : ∀ t ∈ seed.transactions, WellFormed t := by
  intro t ht
  simp only [seed, List.mem_cons, List.mem_singleton, List.not_mem_nil, or_false] at ht
  rcases ht with rfl | rfl | rfl
  · exact ⟨by decide, by decide, Or.inr rfl⟩
  · exact ⟨by decide, by decide, Or.inl rfl⟩
  · exact ⟨by decide, by decide, Or.inr rfl⟩

theorem WellFormed_handle (H : Host) (s : Store) (r : Request)
    (h : ∀ t ∈ s.transactions, WellFormed t) :
    ∀ t ∈ (handle H s r).2.transactions, WellFormed t := by
  cases r with
  | get => simp only [handle, GET_store]; exact h
  | post now body =>
    simp only [handle]
    rcases POST_outcome H now s body with e | ⟨_, _, _, _, e⟩ | ⟨_, _, _, _, _, e⟩ |
      ⟨_, _, _, _, _, _, e⟩ | ⟨_, _, _, _, _, _, _, e⟩ |
      ⟨b, a, d, _, _, _, h2, _, h4, _, hd, e⟩
    all_goals rw [e]
    all_goals first
      | exact h
      | skip
    intro t ht
    rcases List.mem_append.mp ht with ht | ht
    · exact h t ht
    · rw [List.mem_singleton] at ht
      subst ht
      exact WellFormed_fields ⟨toString s.nextId, a, "", .null, .null, now⟩ a d b h2 hd h4
  | put body =>
    simp only [handle]
    rcases PUT_outcome H s body with e | ⟨_, _, _, _, e⟩ | ⟨_, _, _, _, _, e⟩ |
      ⟨_, _, _, _, _, _, e⟩ | ⟨_, _, _, _, _, _, _, e⟩ | ⟨_, _, _, _, _, _, _, _, e⟩ |
      ⟨_, _, _, _, _, _, _, _, _, e⟩ | ⟨b, i, a, d, _, _, _, _, h2, _, h4, _, _, hd, e⟩
    all_goals rw [e]
    all_goals first
      | exact h
      | skip
    intro t ht
    rcases List.mem_or_eq_of_mem_set ht with ht | rfl
    · exact h t ht
    · exact WellFormed_fields _ a d b h2 hd h4
  | delete body =>
    simp only [handle]
    rcases DELETE_outcome s body with e | ⟨_, _, _, _, e⟩ | ⟨_, _, _, _, _, e⟩ |
      ⟨_, _, _, _, _, _, e⟩
    all_goals rw [e]
    all_goals first
      | exact h
      | skip
    intro t ht
    exact h t ((List.eraseIdx_sublist _ _).subset ht)

/-- C12. Record well-formedness invariant. In every store reachable from the seed store by any
sequence of requests, every stored record has a description that is non-empty after trimming
white space and is already trimmed (trimming it changes nothing), and a type that is exactly
the text `'income'` or the text `'expense'`. -/
theorem stored_records_well_formed (H : Host) (s : Store) (hs : Reachable H s) :
    ∀ t ∈ s.transactions,
      trim t.description ≠ "" ∧ trim t.description = t.description ∧
        (t.type = .str "income" ∨ t.type = .str "expense") := by
  induction hs with
  | seed => exact WellFormed_seed
  | step s r _ ih => exact WellFormed_handle H s r ih

/-- C12 on the store the seed store is in after the create of the coffee record. -/
theorem stored_records_well_formed_witness :
    Reachable idealHost
      (handle idealHost seed (.post "2024-01-20T09:00:00.000Z" (some coffeeBody))).2 ∧
    ∀ t ∈ (handle idealHost seed
        (.post "2024-01-20T09:00:00.000Z" (some coffeeBody))).2.transactions,
      trim t.description ≠ "" ∧ trim t.description = t.description ∧
        (t.type = .str "income" ∨ t.type = .str "expense") :=
  ⟨Reachable.step seed _ Reachable.seed,
    stored_records_well_formed idealHost _ (Reachable.step seed _ Reachable.seed)⟩

/-! ## C13: the seed scenario -/

theorem seed_calendar : ∀ t ∈ seed.transactions, (calendarDate t.date).isSome = true := by
  intro t ht
  simp only [seed, List.mem_cons, List.mem_singleton, List.not_mem_nil, or_false] at ht
  rcases ht with rfl | rfl | rfl <;> decide

/-- C13. Seed scenario, for every host and clock reading. On the seed store (three records
dated 2024-01-15, 2024-01-01, 2024-01-10) `GET` answers 200 with the records in the order
2024-01-15, 2024-01-10, 2024-01-01 (ids `'1'`, `'3'`, `'2'`); then
`POST {amount: 50, description: 'Coffee', date: '2024-01-20', type: 'expense'}` answers 201
with a record whose id is `'4'`; and `GET` on the store this leaves answers 200 with four
records, the new record first. -/
theorem seed_scenario (H : Host) (now : String) :
    (∃ l, GET H seed = (⟨200, .list l⟩, seed) ∧
      l.map (fun t => (t._id, calendarDate t.date)) =
        [("1", some (2024, 1, 15)), ("3", some (2024, 1, 10)), ("2", some (2024, 1, 1))]) ∧
    ∃ t, (POST H now seed (some coffeeBody)).1 = ⟨201, .record t⟩ ∧ t._id = "4" ∧
      calendarDate t.date = some (2024, 1, 20) ∧
      ∃ l, GET H (POST H now seed (some coffeeBody)).2 =
          (⟨200, .list l⟩, (POST H now seed (some coffeeBody)).2) ∧
        l.length = 4 ∧ l.head? = some t ∧
        l.map (fun t => t._id) = ["4", "1", "3", "2"] := by
  constructor
  · refine ⟨seed.transactions.insertionSort (fun a b => dateKey b ≤ dateKey a), ?_, ?_⟩
    · simp only [GET, sortWith_calendar H seed.transactions seed_calendar]
    · decide
  · obtain ⟨a, d, _, _, hp⟩ := POST_valid H now seed coffeeBody rfl rfl rfl rfl rfl
    have hcal : ∀ t ∈ seed.transactions ++ [created now seed a d coffeeBody],
        (calendarDate t.date).isSome = true := by
      intro t ht
      rcases List.mem_append.mp ht with ht | ht
      · exact seed_calendar t ht
      · rw [List.mem_singleton] at ht
        subst ht
        rfl
    refine ⟨created now seed a d coffeeBody, by rw [hp], rfl, rfl,
      (seed.transactions ++ [created now seed a d coffeeBody]).insertionSort
        (fun a b => dateKey b ≤ dateKey a), ?_, ?_, ?_, ?_⟩
    · rw [hp]
      simp only [GET, sortWith_calendar H _ hcal]
    · rfl
    · rfl
    · rfl

/-! ## C14: `PUT` validates like `POST` -/

/-- C17. There is a body (`{_id: '1', amount: 10, description: 5, date: '2024-01-01',
type: 'expense'}`) whose amount, date and type pass their checks and whose description is
present and not text, the number 5, on which the description check raises instead of returning;
so for every host, clock reading and store the response of `POST` is the generic status-500
error `Failed to create transaction`, that of `PUT` is the status-500 error
`Failed to update transaction`, neither is the 400 `Description is required`, and the store is
unchanged. -/
theorem description_not_text_gives_500 :
    ∃ body : JSValue,
      prop body "description" = .num (.fin 5) ∧
      toBoolean (prop body "description") = true ∧
      toBoolean (prop body "_id") = true ∧
      (∀ H : Host, amountInvalid H (prop body "amount") = .ok false) ∧
      dateInvalid (prop body "date") = false ∧
      typeInvalid (prop body "type") = false ∧
      descriptionInvalid (prop body "description") = .error () ∧
      ∀ (H : Host) (now : String) (s : Store),
        POST H now s (some body) = (⟨500, .error "Failed to create transaction"⟩, s) ∧
        PUT H s (some body) = (⟨500, .error "Failed to update transaction"⟩, s) ∧
        (POST H now s (some body)).1.status ≠ 400 ∧ (PUT H s (some body)).1.status ≠ 400 := by
  refine ⟨numberFiveBody, rfl, rfl, rfl, fun _ => rfl, rfl, rfl, rfl, ?_⟩
  intro H now s
  have h1 := POST_description_throws H now s numberFiveBody rfl rfl () rfl
  have h2 := PUT_description_throws H s numberFiveBody rfl rfl rfl () rfl
  refine ⟨h1, h2, ?_, ?_⟩
  · rw [h1]; simp
  · rw [h2]; simp

end FinanceTracker
